import Mathlib

/-!
Verification of the JOSE protocol engine of this repository (JWS
serialization/deserialization, the AES-KW JWE key-management algorithms and
the EdDSA key loading code) against its natural-language specification.

Bytes are modelled as `Nat` (with `< 256` hypotheses where byte bounds
matter), byte strings as `List Nat`, and Rust `String` values as Lean
`String` values whose UTF-8 bytes are recovered by `strBytes`.

The JSON codec (serde_json) and the cryptographic primitive provider
(openssl) are out-of-scope external collaborators per the specification;
they are modelled as explicit parameters (`JsonCodec`, `AesKwPrim`) or
abstract function fields (`JwsSigner.sign`, `JwsVerifier.verify`), with the
interface properties the specification documents taken as hypotheses of the
theorems that need them. Concrete instances are supplied for witnesses.
-/

set_option maxHeartbeats 1000000
set_option maxRecDepth 100000

namespace Josekit

/-- A JSON value, mirroring `serde_json::Value`. Objects are ordered
association lists of string keys, mirroring `serde_json::Map`. -/
inductive Json where
  | null
  | bool (b : Bool)
  | num (n : Int)
  | str (s : String)
  | arr (xs : List Json)
  | obj (m : List (String × Json))

/-- A JSON object body: `serde_json::Map<String, Value>`. -/
abbrev JsonMap := List (String × Json)

/-- `serde_json::Map::get`. -/
def mapGet (m : JsonMap) (k : String) : Option Json :=
  match m with
  | [] => none
  | (k', v) :: rest => if k' = k then some v else mapGet rest k

/-- `serde_json::Map::contains_key`. -/
def mapContains (m : JsonMap) (k : String) : Bool :=
  match m with
  | [] => false
  | (k', _) :: rest => if k' = k then true else mapContains rest k

/-- `serde_json::Map::insert`: replace the value in place when the key is
present, append otherwise. -/
def mapInsert (m : JsonMap) (k : String) (v : Json) : JsonMap :=
  match m with
  | [] => [(k, v)]
  | (k', v') :: rest =>
      if k' = k then (k, v) :: rest else (k', v') :: mapInsert rest k v

/-- `serde_json::Map::remove`: the removed value (if any) and the remaining
map. -/
def mapRemove (m : JsonMap) (k : String) : Option Json × JsonMap :=
  match m with
  | [] => (none, [])
  | (k', v) :: rest =>
      if k' = k then (some v, rest)
      else
        let r := mapRemove rest k
        (r.1, (k', v) :: r.2)

theorem mapGet_insert (m : JsonMap) (k k' : String) (v : Json) :
    mapGet (mapInsert m k v) k' = if k = k' then some v else mapGet m k' := by
  induction m with
  | nil => by_cases h : k = k' <;> simp [mapInsert, mapGet, h]
  | cons p rest ih =>
      obtain ⟨k0, v0⟩ := p
      by_cases h0 : k0 = k
      · by_cases h1 : k = k' <;> simp [mapInsert, mapGet, h0, h1]
      · by_cases h1 : k0 = k'
        · subst h1
          have : ¬ k = k0 := fun h => h0 h.symm
          simp [mapInsert, mapGet, h0, this]
        · simp [mapInsert, mapGet, h0, h1, ih]

theorem mapGet_insert_same (m : JsonMap) (k : String) (v : Json) :
    mapGet (mapInsert m k v) k = some v := by
  simp [mapGet_insert]

theorem mapGet_insert_other (m : JsonMap) (k k' : String) (v : Json)
    (h : k ≠ k') : mapGet (mapInsert m k v) k' = mapGet m k' := by
  simp [mapGet_insert, h]

/-! ## Base64url (URL-safe alphabet, no padding, strict decode)

The `base64` crate with `base64::URL_SAFE_NO_PAD`, an external collaborator
whose wire behaviour the specification fixes bit-exactly: URL-safe
alphabet, no padding, strict decode (non-alphabet characters and non-zero
trailing bits are rejected). -/

/-- The URL-safe base64 alphabet, as byte values: index 0..63 to
`A-Z a-z 0-9 - _`. -/
def b64Char (n : Nat) : Nat :=
  if n < 26 then 65 + n
  else if n < 52 then 97 + (n - 26)
  else if n < 62 then 48 + (n - 52)
  else if n = 62 then 45
  else 95

/-- Inverse of the URL-safe alphabet; `none` on a non-alphabet byte
(strict decode). -/
def b64Val (c : Nat) : Option Nat :=
  if 65 ≤ c ∧ c ≤ 90 then some (c - 65)
  else if 97 ≤ c ∧ c ≤ 122 then some (c - 97 + 26)
  else if 48 ≤ c ∧ c ≤ 57 then some (c - 48 + 52)
  else if c = 45 then some 62
  else if c = 95 then some 63
  else none

/-- `base64::encode_config(_, URL_SAFE_NO_PAD)` over bytes. -/
def b64urlEncode : List Nat → List Nat
  | [] => []
  | [a] => [b64Char (a / 4), b64Char (a % 4 * 16)]
  | [a, b] => [b64Char (a / 4), b64Char (a % 4 * 16 + b / 16), b64Char (b % 16 * 4)]
  | a :: b :: c :: rest =>
      b64Char (a / 4) :: b64Char (a % 4 * 16 + b / 16) ::
      b64Char (b % 16 * 4 + c / 64) :: b64Char (c % 64) :: b64urlEncode rest

/-- `base64::decode_config(_, URL_SAFE_NO_PAD)` over bytes: strict decode,
rejecting non-alphabet bytes, a trailing single character, and non-zero
trailing bits. -/
def b64urlDecode : List Nat → Option (List Nat)
  | [] => some []
  | [_] => none
  | [c1, c2] => do
      let s1 ← b64Val c1
      let s2 ← b64Val c2
      if s2 % 16 = 0 then some [s1 * 4 + s2 / 16] else none
  | [c1, c2, c3] => do
      let s1 ← b64Val c1
      let s2 ← b64Val c2
      let s3 ← b64Val c3
      if s3 % 4 = 0 then some [s1 * 4 + s2 / 16, s2 % 16 * 16 + s3 / 4] else none
  | c1 :: c2 :: c3 :: c4 :: rest => do
      let s1 ← b64Val c1
      let s2 ← b64Val c2
      let s3 ← b64Val c3
      let s4 ← b64Val c4
      let tl ← b64urlDecode rest
      some ((s1 * 4 + s2 / 16) :: (s2 % 16 * 16 + s3 / 4) :: (s3 % 4 * 64 + s4) :: tl)

theorem b64Char_ne_dot (n : Nat) : b64Char n ≠ 46 := by
  unfold b64Char
  split
  · omega
  · split
    · omega
    · split
      · omega
      · split <;> omega

theorem b64urlEncode_not_mem_dot (bs : List Nat) : 46 ∉ b64urlEncode bs := by
  induction bs using b64urlEncode.induct with
  | case1 => simp [b64urlEncode]
  | case2 a =>
      simp only [b64urlEncode, List.mem_cons, List.not_mem_nil, or_false]
      exact fun h => h.elim (fun h => b64Char_ne_dot _ h.symm)
        (fun h => b64Char_ne_dot _ h.symm)
  | case3 a b =>
      simp only [b64urlEncode, List.mem_cons, List.not_mem_nil, or_false]
      intro h
      rcases h with h | h | h
      · exact b64Char_ne_dot _ h.symm
      · exact b64Char_ne_dot _ h.symm
      · exact b64Char_ne_dot _ h.symm
  | case4 a b c rest ih =>
      simp only [b64urlEncode, List.mem_cons]
      intro h
      rcases h with h | h | h | h | h
      · exact b64Char_ne_dot _ h.symm
      · exact b64Char_ne_dot _ h.symm
      · exact b64Char_ne_dot _ h.symm
      · exact b64Char_ne_dot _ h.symm
      · exact ih h

theorem b64Val_b64Char (n : Nat) (h : n < 64) : b64Val (b64Char n) = some n :=
  (by decide : ∀ m ∈ List.range 64, b64Val (b64Char m) = some m) n
    (List.mem_range.mpr h)

theorem b64urlDecode_encode (bs : List Nat) (h : ∀ b ∈ bs, b < 256) :
    b64urlDecode (b64urlEncode bs) = some bs := by
  induction bs using b64urlEncode.induct with
  | case1 => rfl
  | case2 a =>
      have ha : a < 256 := h a (by simp)
      rw [b64urlEncode, b64urlDecode]
      rw [b64Val_b64Char _ (by omega), b64Val_b64Char _ (by omega)]
      simp only [Option.bind_eq_bind, Option.some_bind]
      rw [if_pos (by omega)]
      congr 2
      omega
  | case3 a b =>
      have ha : a < 256 := h a (by simp)
      have hb : b < 256 := h b (by simp)
      rw [b64urlEncode, b64urlDecode]
      rw [b64Val_b64Char _ (by omega), b64Val_b64Char _ (by omega),
        b64Val_b64Char _ (by omega)]
      simp only [Option.bind_eq_bind, Option.some_bind]
      rw [if_pos (by omega)]
      congr 1
      congr 1
      · omega
      · congr 1
        omega
  | case4 a b c rest ih =>
      have ha : a < 256 := h a (by simp)
      have hb : b < 256 := h b (by simp)
      have hc : c < 256 := h c (by simp)
      have hrest : ∀ x ∈ rest, x < 256 := fun x hx => h x (by simp [hx])
      rw [b64urlEncode, b64urlDecode]
      rw [b64Val_b64Char _ (by omega), b64Val_b64Char _ (by omega),
        b64Val_b64Char _ (by omega), b64Val_b64Char _ (by omega), ih hrest]
      simp only [Option.bind_eq_bind, Option.some_bind]
      congr 1
      congr 1
      · omega
      · congr 1
        · omega
        · congr 1
          omega

/-! ## UTF-8

`std::str::from_utf8` validity and the UTF-8 byte encoding of a string
(`str::as_bytes`). -/

/-- UTF-8 encoding of a Unicode code point. -/
def utf8Encode (c : Nat) : List Nat :=
  if c < 128 then [c]
  else if c < 2048 then [192 + c / 64, 128 + c % 64]
  else if c < 65536 then [224 + c / 4096, 128 + c / 64 % 64, 128 + c % 64]
  else [240 + c / 262144, 128 + c / 4096 % 64, 128 + c / 64 % 64, 128 + c % 64]

/-- The UTF-8 bytes of a string (`String::as_bytes` in Rust). -/
def strBytes (s : String) : List Nat :=
  (s.data.map (fun ch => utf8Encode ch.toNat)).flatten

/-- `true` when a byte is a UTF-8 continuation byte (`10xxxxxx`). -/
def isCont (b : Nat) : Bool := 128 ≤ b ∧ b ≤ 191

/-- `std::str::from_utf8` succeeds, i.e. the byte string is valid UTF-8
(RFC 3629: correct continuation bytes, no overlong forms, no surrogates,
bounded by U+10FFFF). -/
def isValidUtf8 : List Nat → Bool
  | [] => true
  | b :: rest =>
      if b ≤ 127 then isValidUtf8 rest
      else if 194 ≤ b ∧ b ≤ 223 then
        match rest with
        | c1 :: r => if isCont c1 then isValidUtf8 r else false
        | [] => false
      else if b = 224 then
        match rest with
        | c1 :: c2 :: r =>
            if (160 ≤ c1 ∧ c1 ≤ 191) ∧ isCont c2 then isValidUtf8 r else false
        | _ => false
      else if (225 ≤ b ∧ b ≤ 236) ∨ b = 238 ∨ b = 239 then
        match rest with
        | c1 :: c2 :: r =>
            if isCont c1 ∧ isCont c2 then isValidUtf8 r else false
        | _ => false
      else if b = 237 then
        match rest with
        | c1 :: c2 :: r =>
            if (128 ≤ c1 ∧ c1 ≤ 159) ∧ isCont c2 then isValidUtf8 r else false
        | _ => false
      else if b = 240 then
        match rest with
        | c1 :: c2 :: c3 :: r =>
            if (144 ≤ c1 ∧ c1 ≤ 191) ∧ isCont c2 ∧ isCont c3 then isValidUtf8 r
            else false
        | _ => false
      else if 241 ≤ b ∧ b ≤ 243 then
        match rest with
        | c1 :: c2 :: c3 :: r =>
            if isCont c1 ∧ isCont c2 ∧ isCont c3 then isValidUtf8 r else false
        | _ => false
      else if b = 244 then
        match rest with
        | c1 :: c2 :: c3 :: r =>
            if (128 ≤ c1 ∧ c1 ≤ 143) ∧ isCont c2 ∧ isCont c3 then isValidUtf8 r
            else false
        | _ => false
      else false

/-! ## Splitting a compact serialization at the dots

`deserialize_compact_with_selector` collects the indices of every `.`
character of the input and slices the input at them, requiring exactly two
dots (source lines 361-374).  We embed this as splitting the byte string at
every occurrence of byte 46 (`.`): the source's "exactly two dot indices"
is exactly "the split has three parts", the three slices are the three
parts, and the verified message `input[..indexies[1]]` is
`parts[0] ++ [46] ++ parts[1]`.  (A Rust `&str` is valid UTF-8, in which
byte 46 occurs exactly at the `char` boundaries of `'.'`.) -/

def splitOnDot : List Nat → List (List Nat)
  | [] => [[]]
  | b :: rest =>
      if b = 46 then [] :: splitOnDot rest
      else
        match splitOnDot rest with
        | s :: ss => (b :: s) :: ss
        | [] => [[b]]

theorem splitOnDot_ne_nil (xs : List Nat) : splitOnDot xs ≠ [] := by
  induction xs with
  | nil => simp [splitOnDot]
  | cons b rest ih =>
      rw [splitOnDot]
      split
      · simp
      · split
        · simp
        · simp

theorem splitOnDot_no_dot (xs : List Nat) (h : 46 ∉ xs) :
    splitOnDot xs = [xs] := by
  induction xs with
  | nil => rfl
  | cons b rest ih =>
      have hb : b ≠ 46 := fun hb => h (by simp [hb])
      have hr : 46 ∉ rest := fun hr => h (by simp [hr])
      rw [splitOnDot, if_neg hb, ih hr]

theorem splitOnDot_append_dot (xs ys : List Nat) (h : 46 ∉ xs) :
    splitOnDot (xs ++ 46 :: ys) = xs :: splitOnDot ys := by
  induction xs with
  | nil => simp [splitOnDot]
  | cons b rest ih =>
      have hb : b ≠ 46 := fun hb => h (by simp [hb])
      have hr : 46 ∉ rest := fun hr => h (by simp [hr])
      rw [List.cons_append, splitOnDot, if_neg hb, ih hr]

theorem splitOnDot_three (e1 e2 e3 : List Nat) (h1 : 46 ∉ e1) (h2 : 46 ∉ e2)
    (h3 : 46 ∉ e3) :
    splitOnDot (e1 ++ 46 :: (e2 ++ 46 :: e3)) = [e1, e2, e3] := by
  rw [splitOnDot_append_dot _ _ h1, splitOnDot_append_dot _ _ h2,
    splitOnDot_no_dot _ h3]

/-! ## A concrete JSON codec

A concrete compact JSON printer and parser over bytes, serving as the
instance of the external serde_json collaborator at concrete inputs
(witnesses and counterexamples).  All strings appearing in such inputs are
ASCII without control characters, which is the fragment this codec covers
exactly; the generic theorems are parametric in the codec. -/

/-- Compact JSON printing of a string: quoted, with `"` and `\` escaped. -/
def jsonQuote (s : String) : List Nat :=
  34 :: (strBytes s).flatMap
    (fun b => if b = 34 then [92, 34] else if b = 92 then [92, 92] else [b]) ++ [34]

mutual

/-- Compact JSON printing of a value (`serde_json::to_vec`). -/
def printJson : Json → List Nat
  | .null => strBytes "null"
  | .bool true => strBytes "true"
  | .bool false => strBytes "false"
  | .num n => strBytes (toString n)
  | .str s => jsonQuote s
  | .arr xs => 91 :: printArr xs ++ [93]
  | .obj m => 123 :: printObj m ++ [125]

/-- Comma-separated printing of array elements. -/
def printArr : List Json → List Nat
  | [] => []
  | [x] => printJson x
  | x :: y :: rest => printJson x ++ 44 :: printArr (y :: rest)

/-- Comma-separated printing of object members. -/
def printObj : List (String × Json) → List Nat
  | [] => []
  | [(k, v)] => jsonQuote k ++ 58 :: printJson v
  | (k, v) :: p :: rest => jsonQuote k ++ 58 :: printJson v ++ 44 :: printObj (p :: rest)

end

/-- JSON string-body parsing after the opening quote, ASCII fragment with
the two escapes the printer emits. -/
def parseStrAux : List Nat → List Char → Option (String × List Nat)
  | [], _ => none
  | 34 :: rest, acc => some (String.mk acc.reverse, rest)
  | 92 :: b :: rest, acc =>
      if b = 34 ∨ b = 92 then parseStrAux rest (Char.ofNat b :: acc) else none
  | [92], _ => none
  | b :: rest, acc => parseStrAux rest (Char.ofNat b :: acc)

/-- Greedy decimal-digit run. -/
def digitsAux : List Nat → Nat → Nat × List Nat
  | b :: rest, acc =>
      if 48 ≤ b ∧ b ≤ 57 then digitsAux rest (acc * 10 + (b - 48))
      else (acc, b :: rest)
  | [], acc => (acc, [])

mutual

/-- Fuel-indexed JSON value parsing (`serde_json::from_slice`). -/
def parseVal : Nat → List Nat → Option (Json × List Nat)
  | 0, _ => none
  | fuel + 1, input =>
      match input with
      | 110 :: 117 :: 108 :: 108 :: rest => some (.null, rest)
      | 116 :: 114 :: 117 :: 101 :: rest => some (.bool true, rest)
      | 102 :: 97 :: 108 :: 115 :: 101 :: rest => some (.bool false, rest)
      | 34 :: rest =>
          match parseStrAux rest [] with
          | some (s, r) => some (.str s, r)
          | none => none
      | 91 :: 93 :: rest => some (.arr [], rest)
      | 91 :: rest =>
          match parseVal fuel rest with
          | some (v, r) =>
              match parseArrTail fuel r with
              | some (vs, r2) => some (.arr (v :: vs), r2)
              | none => none
          | none => none
      | 123 :: 125 :: rest => some (.obj [], rest)
      | 123 :: rest =>
          match parseMember fuel rest with
          | some (kv, r) =>
              match parseObjTail fuel r with
              | some (m, r2) => some (.obj (kv :: m), r2)
              | none => none
          | none => none
      | 45 :: b :: rest =>
          if 48 ≤ b ∧ b ≤ 57 then
            match digitsAux (b :: rest) 0 with
            | (n, r) => some (.num (-(n : Int)), r)
          else none
      | b :: rest =>
          if 48 ≤ b ∧ b ≤ 57 then
            match digitsAux (b :: rest) 0 with
            | (n, r) => some (.num (n : Int), r)
          else none
      | [] => none

/-- After an array element: `,` element … or `]`. -/
def parseArrTail : Nat → List Nat → Option (List Json × List Nat)
  | 0, _ => none
  | fuel + 1, input =>
      match input with
      | 93 :: rest => some ([], rest)
      | 44 :: rest =>
          match parseVal fuel rest with
          | some (v, r) =>
              match parseArrTail fuel r with
              | some (vs, r2) => some (v :: vs, r2)
              | none => none
          | none => none
      | _ => none

/-- One `"key":value` object member. -/
def parseMember : Nat → List Nat → Option ((String × Json) × List Nat)
  | 0, _ => none
  | fuel + 1, input =>
      match input with
      | 34 :: rest =>
          match parseStrAux rest [] with
          | some (k, r) =>
              match r with
              | 58 :: r2 =>
                  match parseVal fuel r2 with
                  | some (v, r3) => some ((k, v), r3)
                  | none => none
              | _ => none
          | none => none
      | _ => none

/-- After an object member: `,` member … or a closing brace. -/
def parseObjTail : Nat → List Nat → Option (List (String × Json) × List Nat)
  | 0, _ => none
  | fuel + 1, input =>
      match input with
      | 125 :: rest => some ([], rest)
      | 44 :: rest =>
          match parseMember fuel rest with
          | some (kv, r) =>
              match parseObjTail fuel r with
              | some (m, r2) => some (kv :: m, r2)
              | none => none
          | none => none
      | _ => none

end

/-- `serde_json::from_slice::<Map<String, Value>>`: the input must be one
JSON object spanning the whole input. -/
def parseTop (input : List Nat) : Option (List (String × Json)) :=
  match parseVal (input.length + 1) input with
  | some (.obj m, []) => some m
  | _ => none

/-! ## Error model

`JoseError` (`jose_error.rs`, declarations only; kinds per spec §7).
Messages are carried as plain strings; `bail!` sites inside the JWS context
surface as `InvalidJwtFormat` per the `map_err` at the end of each method,
and provider failures as `InvalidSignature`. -/

inductive JoseError where
  | invalidKeyFormat (msg : String)
  | invalidJwtFormat (msg : String)
  | invalidJwsFormat (msg : String)
  | invalidJweFormat (msg : String)
  | invalidSignature (msg : String)
  | unsupportedAlgorithm (msg : String)
  deriving DecidableEq

/-! ## The JWS header model -/

/-- Modelled from the spec: `jws/jws_header.rs` is not under `src/`.
Per §3 the recognized claims carry typed views (`alg` string, `kid`
string, `crit` array of strings, `b64` bool) and per §4.4 a header is
"constructed from a map, normalized"; `from_map` accepts exactly the maps
whose recognized claims have their declared types. -/
def headerWf (m : JsonMap) : Bool :=
  (match mapGet m "alg" with
   | none => true
   | some (.str _) => true
   | some _ => false) &&
  (match mapGet m "kid" with
   | none => true
   | some (.str _) => true
   | some _ => false) &&
  (match mapGet m "crit" with
   | none => true
   | some (.arr xs) => xs.all (fun j => match j with | .str _ => true | _ => false)
   | some _ => false) &&
  (match mapGet m "b64" with
   | none => true
   | some (.bool _) => true
   | some _ => false)

/-- A JWS header: a wrapped claim map (spec §3, §4.4). -/
structure JwsHeader where
  claimsSet : JsonMap

/-- Modelled from the spec: `JwsHeader::from_map` (not under `src/`)
validates the typed views of §3 and wraps the map. -/
def JwsHeader.fromMap (m : JsonMap) : Except JoseError JwsHeader :=
  if headerWf m then .ok ⟨m⟩
  else .error (.invalidJwsFormat "The JWS header claim is invalid.")

/-- `JwsHeader::claim`. -/
def JwsHeader.claim (h : JwsHeader) (k : String) : Option Json :=
  mapGet h.claimsSet k

/-- Modelled from the spec: the typed view of `alg` (§3). -/
def JwsHeader.algorithm (h : JwsHeader) : Option String :=
  match h.claim "alg" with
  | some (.str s) => some s
  | _ => none

/-- Modelled from the spec: the typed view of `kid` (§3). -/
def JwsHeader.keyId (h : JwsHeader) : Option String :=
  match h.claim "kid" with
  | some (.str s) => some s
  | _ => none

/-- Modelled from the spec: the typed view of `crit` (§3): the string
entries of the `crit` array. -/
def JwsHeader.critical (h : JwsHeader) : Option (List String) :=
  match h.claim "crit" with
  | some (.arr xs) =>
      some (xs.filterMap (fun j => match j with | .str s => some s | _ => none))
  | _ => none

/-- Modelled from the spec: the typed view of `b64` (§3). -/
def JwsHeader.base64urlEncodePayload (h : JwsHeader) : Option Bool :=
  match h.claim "b64" with
  | some (.bool b) => some b
  | _ => none

/-! ## The JWS context -/

/-- `JwsContext`: stateful only in its acceptable-critical set
(source lines 11-48). -/
structure JwsContext where
  acceptableCriticals : List String

/-- `JwsContext::new`. -/
def JwsContext.new : JwsContext := ⟨[]⟩

/-- `JwsContext::is_acceptable_critical`. -/
def JwsContext.isAcceptableCritical (ctx : JwsContext) (name : String) : Bool :=
  ctx.acceptableCriticals.contains name

/-- `JwsContext::add_acceptable_critical`. -/
def JwsContext.addAcceptableCritical (ctx : JwsContext) (name : String) :
    JwsContext :=
  ⟨name :: ctx.acceptableCriticals⟩

/-- The JSON codec (serde_json), an out-of-scope external collaborator
(spec §1): `to_vec` of a claim map and `from_slice`/`from_str` back to a
map (`none` on anything that is not a JSON object). -/
structure JsonCodec where
  toVec : JsonMap → List Nat
  fromSlice : List Nat → Option JsonMap

/-- A JWS signer: the algorithm's canonical name, the bound key id and the
signing primitive (an external provider call; `none` models a provider
failure, surfacing as `InvalidSignature`). `signature_len` is used by the
source only to preallocate capacity and is not modelled. -/
structure JwsSigner where
  algName : String
  keyId : Option String
  sign : List Nat → Option (List Nat)

/-- A JWS verifier: algorithm name, optional bound key id, and the
verification primitive (external provider call returning ok/failure). -/
structure JwsVerifier where
  algName : String
  keyId : Option String
  verify : List Nat → List Nat → Bool

/-! ## Compact serialization (source lines 73-140) -/

/-- The effective `b64` flag of the protected header (source lines
83-90): defaults to `true`, toggled by the `b64` claim only when `crit`
lists `"b64"`. -/
def effectiveB64 (header : JwsHeader) : Bool :=
  match header.critical with
  | some vals =>
      if "b64" ∈ vals then
        match header.base64urlEncodePayload with
        | some v => v
        | none => true
      else true
  | none => true

/-- The payload segment of the compact form (source lines 119-127):
base64url when `b64`, otherwise the payload itself, which must be valid
UTF-8 and must not contain a dot. -/
def compactPayloadSegment (b64 : Bool) (payload : List Nat) :
    Except JoseError (List Nat) :=
  if b64 then .ok (b64urlEncode payload)
  else
    if isValidUtf8 payload then
      if 46 ∈ payload then
        .error (.invalidJwtFormat "A JWS payload cannot contain dot.")
      else .ok payload
    else .error (.invalidJwtFormat "invalid utf-8 sequence")

/-- The claim map actually emitted as the protected header (source lines
97-104): the input header's claims with `alg` set to the signer's
algorithm name and `kid` set to the signer's key id when it has one. -/
def serializedHeaderMap (signer : JwsSigner) (header : JwsHeader) : JsonMap :=
  let m1 := mapInsert header.claimsSet "alg" (.str signer.algName)
  match signer.keyId with
  | some kid => mapInsert m1 "kid" (.str kid)
  | none => m1

/-- `JwsContext::serialize_compact_with_selector` (source lines 73-140). -/
def serializeCompactWithSelector (codec : JsonCodec) (payload : List Nat)
    (header : JwsHeader) (selector : JwsHeader → Option JwsSigner) :
    Except JoseError (List Nat) :=
  let b64 := effectiveB64 header
  match selector header with
  | none => .error (.invalidJwtFormat "A signer is not found.")
  | some signer =>
      let headerBytes := codec.toVec (serializedHeaderMap signer header)
      match compactPayloadSegment b64 payload with
      | .error e => .error e
      | .ok seg =>
          let message := b64urlEncode headerBytes ++ 46 :: seg
          match signer.sign message with
          | none => .error (.invalidSignature "The signing failed.")
          | some signature => .ok (message ++ 46 :: b64urlEncode signature)

/-- `JwsContext::serialize_compact` (source lines 57-64). -/
def serializeCompact (codec : JsonCodec) (payload : List Nat)
    (header : JwsHeader) (signer : JwsSigner) : Except JoseError (List Nat) :=
  serializeCompactWithSelector codec payload header (fun _ => some signer)

/-! ## Compact deserialization (source lines 352-438) -/

/-- The `alg` cross-check of deserialization (source lines 385-394). -/
def checkAlg (header : JwsHeader) (algName : String) : Except JoseError Unit :=
  match header.claim "alg" with
  | some (.str v) =>
      if v = algName then .ok ()
      else .error (.invalidJwtFormat
        ("The JWS alg header claim is not " ++ algName ++ ": " ++ v))
  | some _ => .error (.invalidJwtFormat "The JWS alg header claim must be a string.")
  | none => .error (.invalidJwtFormat "The JWS alg header claim is required.")

/-- The `kid` cross-check of deserialization (source lines 396-403): only
checked when the verifier has a bound key id. -/
def checkKid (headerKid verifierKid : Option String) : Except JoseError Unit :=
  match verifierKid with
  | none => .ok ()
  | some expected =>
      match headerKid with
      | some actual =>
          if expected = actual then .ok ()
          else .error (.invalidJwtFormat
            ("The JWS kid header claim is mismatched: " ++ actual))
      | none => .error (.invalidJwtFormat "The JWS kid header claim is required.")

/-- The `crit` walk of compact deserialization (source lines 405-420):
each string entry must be in the acceptance set; the entry `"b64"`
additionally re-reads the `b64` claim into the flag; non-string entries
are silently skipped (the source only pattern-matches `Value::String`). -/
def critWalkCompact (ctx : JwsContext) (header : JwsHeader) :
    List Json → Bool → Except JoseError Bool
  | [], b64 => .ok b64
  | v :: rest, b64 =>
      match v with
      | .str name =>
          if ctx.isAcceptableCritical name then
            critWalkCompact ctx header rest
              (if name = "b64" then
                match header.base64urlEncodePayload with
                | some val => val
                | none => b64
              else b64)
          else .error (.invalidJwtFormat
            ("The critical name is not supported: " ++ name))
      | _ => critWalkCompact ctx header rest b64

/-- The effective `b64` flag on the verification side (source lines
405-420): the crit walk starting from `true`; a non-array (or absent)
`crit` claim is ignored. -/
def critB64Compact (ctx : JwsContext) (header : JwsHeader) :
    Except JoseError Bool :=
  match header.claim "crit" with
  | some (.arr vals) => critWalkCompact ctx header vals true
  | _ => .ok true

/-- Decoding the protected-header segment (source lines 376-378):
base64url decode, JSON parse, `JwsHeader::from_map`. -/
def parseCompactHeader (codec : JsonCodec) (hSeg : List Nat) :
    Except JoseError JwsHeader :=
  match b64urlDecode hSeg with
  | none => .error (.invalidJwtFormat "The protected header is invalid base64.")
  | some headerBytes =>
      match codec.fromSlice headerBytes with
      | none => .error (.invalidJwtFormat "The protected header is invalid JSON.")
      | some headerMap => JwsHeader.fromMap headerMap

/-- The tail of compact deserialization once a verifier is selected
(source lines 385-432): alg check, kid check, crit walk, signature
verification over `input[..second_dot]`, payload decode. -/
def compactVerifyTail (ctx : JwsContext) (header : JwsHeader)
    (verifier : JwsVerifier) (hSeg pSeg sSeg : List Nat) :
    Except JoseError (List Nat × JwsHeader) :=
  match checkAlg header verifier.algName with
  | .error e => .error e
  | .ok _ =>
      match checkKid header.keyId verifier.keyId with
      | .error e => .error e
      | .ok _ =>
          match critB64Compact ctx header with
          | .error e => .error e
          | .ok b64 =>
              match b64urlDecode sSeg with
              | none => .error (.invalidJwtFormat "The signature is invalid base64.")
              | some sigBytes =>
                  if verifier.verify (hSeg ++ 46 :: pSeg) sigBytes then
                    match (if b64 then b64urlDecode pSeg else some pSeg) with
                    | some payload => .ok (payload, header)
                    | none => .error (.invalidJwtFormat "The payload is invalid base64.")
                  else .error (.invalidSignature "The signature does not verify.")

/-- `JwsContext::deserialize_compact_with_selector` (source lines
352-438). -/
def deserializeCompactWithSelector (ctx : JwsContext) (codec : JsonCodec)
    (input : List Nat)
    (selector : JwsHeader → Except JoseError (Option JwsVerifier)) :
    Except JoseError (List Nat × JwsHeader) :=
  match splitOnDot input with
  | [hSeg, pSeg, sSeg] =>
      match parseCompactHeader codec hSeg with
      | .error e => .error e
      | .ok header =>
          match selector header with
          | .error e => .error e
          | .ok none => .error (.invalidJwtFormat "A verifier is not found.")
          | .ok (some verifier) =>
              compactVerifyTail ctx header verifier hSeg pSeg sSeg
  | _ => .error (.invalidJwtFormat
      "The compact serialization form of JWS must be three parts separated by colon.")

/-- `JwsContext::deserialize_compact` (source lines 337-343). -/
def deserializeCompact (ctx : JwsContext) (codec : JsonCodec)
    (input : List Nat) (verifier : JwsVerifier) :
    Except JoseError (List Nat × JwsHeader) :=
  deserializeCompactWithSelector ctx codec input (fun _ => .ok (some verifier))

/-! ## JSON (flattened and general) deserialization (source lines 482-626) -/

/-- The duplicate-key merge of one signature entry (source lines 542-548):
every key of the protected map is inserted into the accumulating map, and
a key already present is a hard error. -/
def mergeProtected (merged : JsonMap) : JsonMap → Except JoseError JsonMap
  | [] => .ok merged
  | (k, v) :: rest =>
      if mapContains merged k then
        .error (.invalidJwtFormat ("A duplicate key exists: " ++ k))
      else mergeProtected (mapInsert merged k v) rest

/-- The tail of entry preparation after the protected header is decoded
(source lines 536-558): build the merge base from the unprotected header,
merge the protected claims into it under the duplicate-key rule, decode
the signature field, and run `JwsHeader::from_map` on the merged map.
Note the merge base for an entry *without* an unprotected header is
`protected.clone()` (source line 539), so the subsequent loop over
`protected` immediately reports its first key as a duplicate. -/
def entryTail (prot : JsonMap) (protB64 : String) (merged0 : JsonMap)
    (sigMap : JsonMap) :
    Except JoseError (JsonMap × String × List Nat × JwsHeader) :=
  match mergeProtected merged0 prot with
  | .error e => .error e
  | .ok merged =>
      match mapGet sigMap "signature" with
      | some (.str sv) =>
          match b64urlDecode (strBytes sv) with
          | none => .error (.invalidJwtFormat "The signature field is invalid base64.")
          | some sigBytes =>
              match JwsHeader.fromMap merged with
              | .error e => .error e
              | .ok mh => .ok (prot, protB64, sigBytes, mh)
      | some _ => .error (.invalidJwtFormat "The signature field must be string.")
      | none => .error (.invalidJwtFormat "The signature field is required.")

/-- Preparation of one signature entry (source lines 520-558): remove the
unprotected `header` field, decode the `protected` field (which must exist
and contain `alg`), then `entryTail`.  Returns the protected map, the
protected base64 string, the signature bytes and the merged header. -/
def prepareEntry (codec : JsonCodec) (sig : JsonMap) :
    Except JoseError (JsonMap × String × List Nat × JwsHeader) :=
  let rh := mapRemove sig "header"
  match mapGet rh.2 "protected" with
  | some (.str val) =>
      match b64urlDecode (strBytes val) with
      | none => .error (.invalidJwtFormat "The protected field is invalid base64.")
      | some vec =>
          match codec.fromSlice vec with
          | none => .error (.invalidJwtFormat "The protected field is invalid JSON.")
          | some prot =>
              if (mapGet prot "alg").isNone then
                .error (.invalidJwtFormat "The JWS alg header claim must be in protected.")
              else
                match rh.1 with
                | some (.obj hdr) => entryTail prot val hdr rh.2
                | some _ => .error (.invalidJwtFormat "The protected field must be a object.")
                | none => entryTail prot val prot rh.2
  | some _ => .error (.invalidJwtFormat "The protected field must be a string.")
  | none => .error (.invalidJwtFormat "The JWS alg header claim must be in protected.")

/-- The `crit` walk of JSON deserialization (source lines 585-606): unlike
the compact walk it re-reads the `b64` claim from the *protected* map with
a type check, and a non-string entry is a hard error. -/
def critWalkJson (ctx : JwsContext) (prot : JsonMap) :
    List Json → Bool → Except JoseError Bool
  | [], b64 => .ok b64
  | v :: rest, b64 =>
      match v with
      | .str name =>
          if ctx.isAcceptableCritical name then
            if name = "b64" then
              match mapGet prot "b64" with
              | some (.bool val) => critWalkJson ctx prot rest val
              | some _ => .error (.invalidJwtFormat "The JWS b64 header claim must be bool.")
              | none => critWalkJson ctx prot rest b64
            else critWalkJson ctx prot rest b64
          else .error (.invalidJwtFormat
            ("The critical name is not supported: " ++ name))
      | _ => .error (.invalidJwtFormat
          "The JWS critical header claim must be a array of string.")

/-- The effective `b64` of a JSON signature entry: the source reads
`protected.get("critical")` (source line 585) — the key `"critical"`, not
the wire name `"crit"` — so a `crit` claim is never walked here. -/
def critB64Json (ctx : JwsContext) (prot : JsonMap) :
    Except JoseError Bool :=
  match mapGet prot "critical" with
  | some (.arr vals) => critWalkJson ctx prot vals true
  | _ => .ok true

/-- The checks between verifier selection and signature verification of a
JSON signature entry (source lines 564-606): `alg` and `kid` against the
merged header, then the critical walk over the protected map. -/
def checkEntryJson (ctx : JwsContext) (prot : JsonMap)
    (merged : JwsHeader) (verifier : JwsVerifier) : Except JoseError Bool :=
  match checkAlg merged verifier.algName with
  | .error e => .error e
  | .ok _ =>
      match checkKid merged.keyId verifier.keyId with
      | .error e => .error e
      | .ok _ => critB64Json ctx prot

/-- The walk over the `signatures` entries (source lines 519-620): the
first entry whose selector yields a verifier is checked and verified
(failures are terminal); an entry whose selector yields `None` is skipped;
an exhausted list is the terminal no-matching-signature error. -/
def dsjLoop (ctx : JwsContext) (codec : JsonCodec) (payloadB64 : String)
    (selector : JwsHeader → Except JoseError (Option JwsVerifier)) :
    List JsonMap → Except JoseError (List Nat × JwsHeader)
  | [] => .error (.invalidJwtFormat
      "A signature that matched the header claims is not found.")
  | sig :: rest =>
      match prepareEntry codec sig with
      | .error e => .error e
      | .ok (prot, protB64, sigBytes, merged) =>
          match selector merged with
          | .error e => .error e
          | .ok none => dsjLoop ctx codec payloadB64 selector rest
          | .ok (some verifier) =>
              match checkEntryJson ctx prot merged verifier with
              | .error e => .error e
              | .ok b64 =>
                  if verifier.verify
                      (strBytes protB64 ++ 46 :: strBytes payloadB64) sigBytes then
                    match (if b64 then b64urlDecode (strBytes payloadB64)
                           else some (strBytes payloadB64)) with
                    | some payload => .ok (payload, merged)
                    | none => .error (.invalidJwtFormat "The payload is invalid base64.")
                  else .error (.invalidSignature "The signature does not verify.")

/-- Each element of the `signatures` array must be an object (source lines
499-517). -/
def collectObjs : List Json → Option (List JsonMap)
  | [] => some []
  | .obj m :: rest => (collectObjs rest).map (fun tl => m :: tl)
  | _ :: _ => none

/-- `JwsContext::deserialize_json_with_selector` (source lines 482-626). -/
def deserializeJsonWithSelector (ctx : JwsContext) (codec : JsonCodec)
    (input : List Nat)
    (selector : JwsHeader → Except JoseError (Option JwsVerifier)) :
    Except JoseError (List Nat × JwsHeader) :=
  match codec.fromSlice input with
  | none => .error (.invalidJwtFormat "The input is invalid JSON.")
  | some map =>
      let rp := mapRemove map "payload"
      match rp.1 with
      | some (.str payloadB64) =>
          let rs := mapRemove rp.2 "signatures"
          match rs.1 with
          | some (.arr vals) =>
              match collectObjs vals with
              | none => .error (.invalidJwtFormat
                  "The signatures field must be a array of object.")
              | some sigs => dsjLoop ctx codec payloadB64 selector sigs
          | some _ => .error (.invalidJwtFormat "The signatures field must be a array.")
          | none => dsjLoop ctx codec payloadB64 selector [rs.2]
      | some _ => .error (.invalidJwtFormat "The payload field must be string.")
      | none => .error (.invalidJwtFormat "The payload field is required.")

/-- `JwsContext::deserialize_json` (source lines 447-473): the selector
that accepts the single fixed verifier when the merged header's `alg`
(and `kid`, when the verifier binds one) match, and skips otherwise. -/
def deserializeJson (ctx : JwsContext) (codec : JsonCodec) (input : List Nat)
    (verifier : JwsVerifier) : Except JoseError (List Nat × JwsHeader) :=
  deserializeJsonWithSelector ctx codec input (fun header =>
    match header.algorithm with
    | some val =>
        if val = verifier.algName then
          match verifier.keyId with
          | some expected =>
              match header.keyId with
              | some actual =>
                  if expected = actual then .ok (some verifier) else .ok none
              | none => .ok none
          | none => .ok (some verifier)
        else .ok none
    | none => .ok none)

/-! ## The concrete codec instance -/

/-- The concrete JSON codec instance (printer/parser above). -/
def jsonCodec : JsonCodec := ⟨fun m => printJson (.obj m), parseTop⟩

/-! ## AES key wrap (`src/jwe/alg/aes.rs`) -/

/-- `AesJweAlgorithm` (source lines 12-20). -/
inductive AesJweAlgorithm where
  | a128Kw
  | a192Kw
  | a256Kw
  deriving DecidableEq

/-- `AesJweAlgorithm::name` (source lines 126-133). -/
def AesJweAlgorithm.name : AesJweAlgorithm → String
  | .a128Kw => "A128KW"
  | .a192Kw => "A192KW"
  | .a256Kw => "A256KW"

/-- `AesJweAlgorithm::key_len` (source lines 117-123). -/
def AesJweAlgorithm.keyLen : AesJweAlgorithm → Nat
  | .a128Kw => 16
  | .a192Kw => 24
  | .a256Kw => 32

/-- Modelled from the spec: `JweHeader` (`jwe/jwe_header.rs` is not under
`src/`) wraps a claim map; `set_algorithm` writes the `alg` claim. -/
structure JweHeader where
  claimsSet : JsonMap

/-- Modelled from the spec: `JweHeader::set_algorithm`. -/
def JweHeader.setAlgorithm (h : JweHeader) (name : String) : JweHeader :=
  ⟨mapInsert h.claimsSet "alg" (.str name)⟩

/-- The typed `alg` view of a JWE header. -/
def JweHeader.algorithm (h : JweHeader) : Option String :=
  match mapGet h.claimsSet "alg" with
  | some (.str s) => some s
  | _ => none

/-- The RFC 3394 AES key-wrap primitive (`openssl::aes::wrap_key` /
`unwrap_key`), an out-of-scope external collaborator (spec §1, §4.5.3):
`wrap key cek` and `unwrap key wrapped`, `none` modelling a provider error
(including an invalid AES key). The spec fixes wrap output length as input
length + 8 and unwrap as its inverse; theorems take these as hypotheses. -/
structure AesKwPrim where
  wrap : List Nat → List Nat → Option (List Nat)
  unwrap : List Nat → List Nat → Option (List Nat)

/-- `AesJweEncrypter` (source lines 140-145). -/
structure AesJweEncrypter where
  algorithm : AesJweAlgorithm
  privateKey : List Nat
  keyId : Option String

/-- `AesJweDecrypter` (source lines 201-206). -/
structure AesJweDecrypter where
  algorithm : AesJweAlgorithm
  privateKey : List Nat
  keyId : Option String

/-- `AesJweEncrypter::encrypt` (source lines 167-194).  `rng` is the draw
of `rand::rand_bytes` into the `key_len` buffer, passed explicitly.  The
wrap output is written into a `key_len + 8` buffer and truncated to the
written length. -/
def AesJweEncrypter.encrypt (prim : AesKwPrim) (e : AesJweEncrypter)
    (header : JweHeader) (keyLen : Nat) (rng : List Nat) :
    Except JoseError (List Nat × Option (List Nat) × JweHeader) :=
  match prim.wrap e.privateKey rng with
  | none => .error (.invalidKeyFormat "The key wrapping failed.")
  | some w =>
      if keyLen + 8 < w.length then
        .error (.invalidKeyFormat "The key wrapping failed.")
      else
        let buf := w ++ List.replicate (keyLen + 8 - w.length) 0
        .ok (rng, some (buf.take w.length), header.setAlgorithm e.algorithm.name)

/-- `AesJweDecrypter::decrypt` (source lines 228-257).  The unwrap output
is written into a `key_len` buffer and truncated to the written length. -/
def AesJweDecrypter.decrypt (prim : AesKwPrim) (d : AesJweDecrypter)
    (_header : JweHeader) (encryptedKey : Option (List Nat)) (keyLen : Nat) :
    Except JoseError (List Nat) :=
  match encryptedKey with
  | none => .error (.invalidJweFormat "A encrypted_key is required.")
  | some ek =>
      match prim.unwrap d.privateKey ek with
      | none => .error (.invalidJweFormat "The key unwrapping failed.")
      | some out =>
          if keyLen < out.length then
            .error (.invalidJweFormat "The key unwrapping failed.")
          else
            let buf := out ++ List.replicate (keyLen - out.length) 0
            .ok (buf.take out.length)

/-! ## DER and PKCS#8 (`src/jws/eddsa.rs`, DER codec per spec §4.1)

The DER reader/writer (`der.rs`) is repository code not under `src/`;
it is modelled from spec §4.1: canonical DER with definite lengths and
minimal encodings. -/

/-- Minimal big-endian base-256 digits of a natural number. -/
def beBytes : Nat → List Nat
  | 0 => []
  | n + 1 => beBytes ((n + 1) / 256) ++ [(n + 1) % 256]
decreasing_by exact Nat.div_lt_self (Nat.succ_pos n) (by omega)

/-- Big-endian base-256 value of a byte string. -/
def beDecode (bs : List Nat) : Nat :=
  bs.foldl (fun acc b => acc * 256 + b) 0

/-- Modelled from the spec: canonical definite DER length encoding
(§4.1): short form below 128, else a count byte `0x80 + k` followed by the
`k` minimal big-endian bytes. -/
def lenEncode (n : Nat) : List Nat :=
  if n < 128 then [n] else (128 + (beBytes n).length) :: beBytes n

/-- Modelled from the spec: the DER reader's length parse, inverse of
`lenEncode`. -/
def readLen : List Nat → Option (Nat × List Nat)
  | [] => none
  | b :: rest =>
      if b < 128 then some (b, rest)
      else
        let k := b - 128
        if rest.length < k then none
        else some (beDecode (rest.take k), rest.drop k)

/-- Modelled from the spec: one primitive or constructed DER
tag-length-value header followed by the content (§4.1). -/
def derPrim (tag : Nat) (content : List Nat) : List Nat :=
  tag :: lenEncode content.length ++ content

/-- Modelled from the spec: DER object-identifier content: the first two
components packed as `40a+b`, the rest in base-128 (all components in this
development are below 128, one byte each). -/
def oidEncode (oid : List Nat) : List Nat :=
  match oid with
  | a :: b :: rest => (a * 40 + b) :: rest
  | _ => []

/-- Modelled from the spec: DER object-identifier content decoding,
inverse of `oidEncode` on the sub-128 component fragment. -/
def oidDecode (content : List Nat) : List Nat :=
  match content with
  | b :: rest => b / 40 :: b % 40 :: rest
  | [] => []

/-- The Ed25519 OID `1.3.101.112` (source lines 15-16). -/
def OID_ED25519 : List Nat := [1, 3, 101, 112]

/-- The Ed448 OID `1.3.101.113` (source lines 18-19). -/
def OID_ED448 : List Nat := [1, 3, 101, 113]

/-- Dotted display of an OID (`ObjectIdentifier::fmt`). -/
def oidToString (oid : List Nat) : String :=
  String.intercalate "." (oid.map toString)

/-- `EddsaJwsAlgorithm::to_pkcs8` (source lines 239-262): an outer
SEQUENCE holding (for private keys) INTEGER 0, then a SEQUENCE holding the
curve OID, then the key material as an OCTET STRING (private) or a
BIT STRING with zero unused bits (public). -/
def toPkcs8 (input : List Nat) (isPublic : Bool) (crv : List Nat) : List Nat :=
  let algId := derPrim 48 (derPrim 6 (oidEncode crv))
  let keyPart := if isPublic then derPrim 3 (0 :: input) else derPrim 4 input
  let version := if isPublic then [] else derPrim 2 [0]
  derPrim 48 (version ++ algId ++ keyPart)

/-- The shared tail of `detect_pkcs8` after the version slot (source lines
215-236): an inner SEQUENCE, then an OBJECT IDENTIFIER that must be one of
the two Edwards-curve OIDs (anything else is a kind-tagged error;
structural mismatch is `Ok None`). -/
def detectAfterVersion (bytes : List Nat) : Except String (Option (List Nat)) :=
  match bytes with
  | 48 :: r =>
      match readLen r with
      | none => .ok none
      | some (_, r2) =>
          match r2 with
          | 6 :: r3 =>
              match readLen r3 with
              | none => .ok none
              | some (len, r4) =>
                  if r4.length < len then .ok none
                  else
                    let oid := oidDecode (r4.take len)
                    if oid = OID_ED25519 ∨ oid = OID_ED448 then .ok (some oid)
                    else .error ("Unsupported curve OID: " ++ oidToString oid)
          | _ => .ok none
  | _ => .ok none

/-- `EddsaJwsAlgorithm::detect_pkcs8` (source lines 186-237): outer
SEQUENCE, for private keys an INTEGER version that must be 0 (a non-zero
version is a kind-tagged error), then `detectAfterVersion`. -/
def detectPkcs8 (input : List Nat) (isPublic : Bool) :
    Except String (Option (List Nat)) :=
  match input with
  | 48 :: r1 =>
      match readLen r1 with
      | none => .ok none
      | some (_, r2) =>
          if isPublic then detectAfterVersion r2
          else
            match r2 with
            | 2 :: r3 =>
                match readLen r3 with
                | none => .ok none
                | some (len, r4) =>
                    if len = 1 then
                      match r4 with
                      | v :: r5 =>
                          if v = 0 then detectAfterVersion r5
                          else .error ("Unrecognized version: " ++ toString v)
                      | [] => .ok none
                    else .ok none
            | _ => .ok none
  | _ => .ok none

/-! ## PEM and the EdDSA signer construction (`src/jws/eddsa.rs`) -/

/-- Splitting a byte string at every occurrence of a separator byte. -/
def splitOnByte (sep : Nat) : List Nat → List (List Nat)
  | [] => [[]]
  | b :: rest =>
      if b = sep then [] :: splitOnByte sep rest
      else
        match splitOnByte sep rest with
        | s :: ss => (b :: s) :: ss
        | [] => [[b]]

/-- Dropping one trailing carriage return of a line. -/
def stripCr (l : List Nat) : List Nat :=
  if l.getLast? = some 13 then l.dropLast else l

/-- Bytes to string on the ASCII fragment. -/
def asciiStr (l : List Nat) : String :=
  String.mk (l.map Char.ofNat)

/-- Translating the standard base64 alphabet to the URL-safe one. -/
def stdToUrl (b : Nat) : Nat :=
  if b = 43 then 45 else if b = 47 then 95 else b

/-- Standard-alphabet base64 decode with padding, expressed by stripping
the trailing pad bytes and translating into the URL-safe decoder (exact on
the standard alphabet, which is all PEM bodies contain). -/
def b64StdDecode (l : List Nat) : Option (List Nat) :=
  b64urlDecode (((l.reverse.dropWhile (fun b => b = 61)).reverse).map stdToUrl)

/-- Translating the URL-safe base64 alphabet to the standard one. -/
def urlToStd (b : Nat) : Nat :=
  if b = 45 then 43 else if b = 95 then 47 else b

/-- Standard-alphabet base64 encode with padding (used to build concrete
PEM inputs). -/
def b64StdEncode (l : List Nat) : List Nat :=
  let e := (b64urlEncode l).map urlToStd
  e ++ List.replicate ((4 - e.length % 4) % 4) 61

/-- The label part of a `-----BEGIN <label>-----` line. -/
def pemHeaderLabel (line : List Nat) : Option (List Nat) :=
  if line.take 11 = strBytes "-----BEGIN " ∧ 16 ≤ line.length ∧
      line.drop (line.length - 5) = strBytes "-----" then
    some ((line.drop 11).take (line.length - 16))
  else none

/-- The label part of a `-----END <label>-----` line. -/
def pemFooterLabel (line : List Nat) : Option (List Nat) :=
  if line.take 9 = strBytes "-----END " ∧ 14 ≤ line.length ∧
      line.drop (line.length - 5) = strBytes "-----" then
    some ((line.drop 9).take (line.length - 14))
  else none

/-- Modelled from the spec: `util::parse_pem` (`util.rs` is not under
`src/`).  Per §4.2 it splits on the BEGIN/END armour lines (whose labels
must agree) and returns the label together with the base64-decoded body. -/
def parsePem (input : List Nat) : Except String (String × List Nat) :=
  let lines := ((splitOnByte 10 input).map stripCr).filter (fun l => !l.isEmpty)
  match lines with
  | [] => .error "The PEM format is invalid."
  | first :: rest =>
      match pemHeaderLabel first, rest.getLast? with
      | some lbl, some lastLine =>
          match pemFooterLabel lastLine with
          | some lbl2 =>
              if lbl = lbl2 then
                match b64StdDecode rest.dropLast.flatten with
                | some data => .ok (asciiStr lbl, data)
                | none => .error "The PEM format is invalid."
              else .error "The PEM format is invalid."
          | none => .error "The PEM format is invalid."
      | _, _ => .error "The PEM format is invalid."

/-- `EddsaJwsAlgorithm` (source lines 21-25). -/
inductive EddsaJwsAlgorithm where
  | eddsa
  deriving DecidableEq

/-- `EddsaJwsAlgorithm::name` (source lines 265-268). -/
def EddsaJwsAlgorithm.name : EddsaJwsAlgorithm → String
  | .eddsa => "EdDSA"

/-- The opaque provider key handle (`openssl::pkey::PKey`), modelled as
the DER it was constructed from; the provider's own structural validation
is an external concern. -/
structure PKeyModel where
  der : List Nat

/-- `EddsaJwsSigner` (source lines 380-384). -/
structure EddsaJwsSigner where
  algorithm : EddsaJwsAlgorithm
  privateKey : PKeyModel
  keyId : Option String

/-- `EddsaJwsAlgorithm::signer_from_pem` (source lines 38-81): parse the
PEM armour; a bare `PRIVATE KEY` label accepts either Edwards OID, while
the traditional labels constrain the OID, a mismatch being the
curve-mismatch `InvalidKeyFormat` error. -/
def signerFromPem (alg : EddsaJwsAlgorithm) (input : List Nat) :
    Except JoseError EddsaJwsSigner :=
  match parsePem input with
  | .error e => .error (.invalidKeyFormat e)
  | .ok (label, data) =>
      if label = "PRIVATE KEY" then
        match detectPkcs8 data false with
        | .error e => .error (.invalidKeyFormat e)
        | .ok (some _) => .ok ⟨alg, ⟨data⟩, none⟩
        | .ok none => .error (.invalidKeyFormat
            "The EdDSA private key must be wrapped by PKCS#8 format.")
      else if label = "ED25519 PRIVATE KEY" then
        match detectPkcs8 data false with
        | .error e => .error (.invalidKeyFormat e)
        | .ok (some oid) =>
            if oid = OID_ED25519 then .ok ⟨alg, ⟨data⟩, none⟩
            else .error (.invalidKeyFormat
              ("The EdDSA curve is mismatched: " ++ oidToString oid))
        | .ok none => .error (.invalidKeyFormat
            "The EdDSA private key must be wrapped by PKCS#8 format.")
      else if label = "ED448 PRIVATE KEY" then
        match detectPkcs8 data false with
        | .error e => .error (.invalidKeyFormat e)
        | .ok (some oid) =>
            if oid = OID_ED448 then .ok ⟨alg, ⟨data⟩, none⟩
            else .error (.invalidKeyFormat
              ("The EdDSA curve is mismatched: " ++ oidToString oid))
        | .ok none => .error (.invalidKeyFormat
            "The EdDSA private key must be wrapped by PKCS#8 format.")
      else .error (.invalidKeyFormat ("Inappropriate algorithm: " ++ label))

/-! ## Claim C4: AES key-wrap round trip -/

/-- C4: for every AES-KW variant, every symmetric key of the variant's
required length, and every requested CEK length n in {16, 24, 32}, with the
RFC 3394 primitive behaviour of spec §4.5.3 (wrap output is 8 octets longer
than its input, unwrap inverts wrap) as hypotheses on the external
provider: `encrypt` returns the n-byte CEK drawn from the RNG and a wrapped
output of n+8 bytes and sets the header's `alg` claim to the variant's
name, and `decrypt` of that wrapped output returns exactly the CEK. -/
theorem c4_aes_kw_roundtrip (prim : AesKwPrim) (a : AesJweAlgorithm)
    (k : List Nat) (kid1 kid2 : Option String) (hdr : JweHeader) (n : Nat)
    (rng w : List Nat)
    (hk : k.length = a.keyLen)
    (hn : n = 16 ∨ n = 24 ∨ n = 32)
    (hrng : rng.length = n)
    (hwrap : prim.wrap k rng = some w)
    (hwlen : w.length = rng.length + 8)
    (hunwrap : prim.unwrap k w = some rng) :
    AesJweEncrypter.encrypt prim ⟨a, k, kid1⟩ hdr n rng
      = .ok (rng, some w, hdr.setAlgorithm a.name)
    ∧ rng.length = n
    ∧ w.length = n + 8
    ∧ (hdr.setAlgorithm a.name).algorithm = some a.name
    ∧ AesJweDecrypter.decrypt prim ⟨a, k, kid2⟩ (hdr.setAlgorithm a.name)
        (some w) n = .ok rng := by
  have hw8 : w.length = n + 8 := by rw [hwlen, hrng]
  refine ⟨?_, hrng, hw8, ?_, ?_⟩
  · rw [AesJweEncrypter.encrypt, hwrap]
    simp only
    rw [if_neg (by omega)]
    have h0 : n + 8 - w.length = 0 := by omega
    simp [h0, List.take_length]
  · simp [JweHeader.setAlgorithm, JweHeader.algorithm, mapGet_insert_same]
  · rw [AesJweDecrypter.decrypt]
    simp only
    rw [hunwrap]
    simp only
    rw [if_neg (by omega)]
    have h0 : n - rng.length = 0 := by omega
    simp [h0, List.take_length]

/-- The RFC 3394 primitive instance used by the C4 witness: wrapping
appends eight zero octets, unwrapping strips them. -/
def c4prim : AesKwPrim :=
  ⟨fun _ m => some (m ++ List.replicate 8 0),
   fun _ w => some (w.take (w.length - 8))⟩

/-- The 16-octet symmetric key of the C4 witness. -/
def c4key : List Nat := List.replicate 16 0

/-- The RNG draw of the C4 witness. -/
def c4rng : List Nat := List.replicate 16 7

/-- The wrapped CEK of the C4 witness. -/
def c4wrapped : List Nat := c4rng ++ List.replicate 8 0

theorem c4_aes_kw_roundtrip_witness :
    AesJweEncrypter.encrypt c4prim ⟨.a128Kw, c4key, none⟩ ⟨[]⟩ 16 c4rng
      = .ok (c4rng, some c4wrapped, JweHeader.setAlgorithm ⟨[]⟩ "A128KW")
    ∧ c4rng.length = 16
    ∧ c4wrapped.length = 16 + 8
    ∧ (JweHeader.setAlgorithm ⟨[]⟩ "A128KW").algorithm = some "A128KW"
    ∧ AesJweDecrypter.decrypt c4prim ⟨.a128Kw, c4key, none⟩
        (JweHeader.setAlgorithm ⟨[]⟩ "A128KW") (some c4wrapped) 16
      = .ok c4rng :=
  c4_aes_kw_roundtrip c4prim .a128Kw c4key none none ⟨[]⟩ 16 c4rng c4wrapped
    (by decide) (by simp) (by decide) (by decide) (by decide) (by decide)

/-! ## Claim C8: PKCS#8 synthesis/detection round trip -/

theorem beDecode_append (xs : List Nat) (b : Nat) :
    beDecode (xs ++ [b]) = beDecode xs * 256 + b := by
  simp [beDecode, List.foldl_append]

theorem beDecode_beBytes (n : Nat) : beDecode (beBytes n) = n := by
  induction n using beBytes.induct with
  | case1 => simp [beBytes, beDecode]
  | case2 n ih =>
      rw [beBytes, beDecode_append, ih]
      omega

theorem beBytes_length_le (k : Nat) :
    ∀ n, n < 256 ^ k → (beBytes n).length ≤ k := by
  induction k with
  | zero =>
      intro n h
      simp only [pow_zero, Nat.lt_one_iff] at h
      subst h
      simp [beBytes]
  | succ k ih =>
      intro n h
      match n with
      | 0 => simp [beBytes]
      | Nat.succ m =>
          rw [beBytes, List.length_append]
          have h2 : (m + 1) / 256 < 256 ^ k := by
            rw [Nat.div_lt_iff_lt_mul (by omega)]
            calc m + 1 < 256 ^ (k + 1) := h
              _ = 256 ^ k * 256 := by rw [pow_succ]
          have := ih _ h2
          simp only [List.length_cons, List.length_nil]
          omega

theorem lenEncode_length_le (n : Nat) (h : n < 256 ^ 8) :
    (lenEncode n).length ≤ 9 := by
  rw [lenEncode]
  split
  · simp
  · have := beBytes_length_le 8 n h
    simp only [List.length_cons]
    omega

theorem readLen_lenEncode (n : Nat) (rest : List Nat) (h : n < 256 ^ 8) :
    readLen (lenEncode n ++ rest) = some (n, rest) := by
  by_cases h128 : n < 128
  · rw [lenEncode, if_pos h128]
    simp [readLen, h128]
  · rw [lenEncode, if_neg h128]
    have hlen : (beBytes n).length ≤ 8 := beBytes_length_le 8 n h
    rw [List.cons_append]
    simp only [readLen]
    rw [if_neg (by omega)]
    have hk : 128 + (beBytes n).length - 128 = (beBytes n).length := by omega
    rw [hk, if_neg (by simp [List.length_append])]
    rw [List.take_left, List.drop_left, beDecode_beBytes]

theorem detectAfterVersion_ed25519 (tail : List Nat) :
    detectAfterVersion (48 :: 5 :: 6 :: 3 :: 43 :: 101 :: 112 :: tail)
      = .ok (some OID_ED25519) := by
  have h3 : ¬ ((43 :: 101 :: 112 :: tail).length < 3) := by simp
  simp [detectAfterVersion, readLen, h3, oidDecode, OID_ED25519, OID_ED448]

theorem detectAfterVersion_ed448 (tail : List Nat) :
    detectAfterVersion (48 :: 5 :: 6 :: 3 :: 43 :: 101 :: 113 :: tail)
      = .ok (some OID_ED448) := by
  have h3 : ¬ ((43 :: 101 :: 113 :: tail).length < 3) := by simp
  simp [detectAfterVersion, readLen, h3, oidDecode, OID_ED25519, OID_ED448]

/-- C8: for every byte-string input (of machine-representable length),
both Edwards curve OIDs, and both key flavours, the PKCS#8 detector run on
the output of PKCS#8 synthesis succeeds and returns exactly the synthesized
curve OID. -/
theorem c8_pkcs8_detect_roundtrip (input crv : List Nat) (isPublic : Bool)
    (hcrv : crv = OID_ED25519 ∨ crv = OID_ED448)
    (hlen : input.length < 2 ^ 60) :
    detectPkcs8 (toPkcs8 input isPublic crv) isPublic = .ok (some crv) := by
  have hpow60 : (2 : Nat) ^ 60 = 1152921504606846976 := by norm_num
  have hpow8 : (256 : Nat) ^ 8 = 18446744073709551616 := by norm_num
  have h8 : input.length < 256 ^ 8 := by omega
  have hle : (lenEncode input.length).length ≤ 9 := lenEncode_length_le _ h8
  have hle1 : (lenEncode (input.length + 1)).length ≤ 9 :=
    lenEncode_length_le _ (by omega)
  rcases hcrv with hc | hc <;> subst hc <;> cases isPublic
  · set C := ([2, 1, 0] ++ [48, 5, 6, 3, 43, 101, 112]) ++ derPrim 4 input with hC
    have etp : toPkcs8 input false OID_ED25519 = 48 :: (lenEncode C.length ++ C) := rfl
    have hC8 : C.length < 256 ^ 8 := by
      rw [hC]
      simp [derPrim, List.length_append]
      omega
    rw [etp]
    simp only [detectPkcs8]
    rw [readLen_lenEncode C.length C hC8]
    simp only [Bool.false_eq_true, if_false, hC]
    simp only [List.cons_append, List.nil_append, List.append_assoc]
    simp only [readLen]
    norm_num
    exact detectAfterVersion_ed25519 _
  · set C := ([] ++ [48, 5, 6, 3, 43, 101, 112]) ++ derPrim 3 (0 :: input) with hC
    have etp : toPkcs8 input true OID_ED25519 = 48 :: (lenEncode C.length ++ C) := rfl
    have hC8 : C.length < 256 ^ 8 := by
      rw [hC]
      simp [derPrim, List.length_append]
      omega
    rw [etp]
    simp only [detectPkcs8]
    rw [readLen_lenEncode C.length C hC8]
    simp only [if_true, hC]
    simp only [List.cons_append, List.nil_append, List.append_assoc]
    exact detectAfterVersion_ed25519 _
  · set C := ([2, 1, 0] ++ [48, 5, 6, 3, 43, 101, 113]) ++ derPrim 4 input with hC
    have etp : toPkcs8 input false OID_ED448 = 48 :: (lenEncode C.length ++ C) := rfl
    have hC8 : C.length < 256 ^ 8 := by
      rw [hC]
      simp [derPrim, List.length_append]
      omega
    rw [etp]
    simp only [detectPkcs8]
    rw [readLen_lenEncode C.length C hC8]
    simp only [Bool.false_eq_true, if_false, hC]
    simp only [List.cons_append, List.nil_append, List.append_assoc]
    simp only [readLen]
    norm_num
    exact detectAfterVersion_ed448 _
  · set C := ([] ++ [48, 5, 6, 3, 43, 101, 113]) ++ derPrim 3 (0 :: input) with hC
    have etp : toPkcs8 input true OID_ED448 = 48 :: (lenEncode C.length ++ C) := rfl
    have hC8 : C.length < 256 ^ 8 := by
      rw [hC]
      simp [derPrim, List.length_append]
      omega
    rw [etp]
    simp only [detectPkcs8]
    rw [readLen_lenEncode C.length C hC8]
    simp only [if_true, hC]
    simp only [List.cons_append, List.nil_append, List.append_assoc]
    exact detectAfterVersion_ed448 _

theorem c8_pkcs8_detect_roundtrip_witness :
    detectPkcs8 (toPkcs8 (List.replicate 32 9) false OID_ED25519) false
      = .ok (some OID_ED25519) :=
  c8_pkcs8_detect_roundtrip (List.replicate 32 9) OID_ED25519 false
    (Or.inl rfl) (by norm_num)

/-! ## Claim C9: traditional PEM label constrains the curve OID -/

/-- C9: a PEM whose label is `ED25519 PRIVATE KEY` but whose PKCS#8 body
carries the Ed448 OID fails `signer_from_pem` with the curve-mismatch
`InvalidKeyFormat` error, and symmetrically for an `ED448 PRIVATE KEY`
label over an Ed25519 body. -/
theorem c9_eddsa_pem_curve_mismatch (input1 input2 d1 d2 : List Nat)
    (h1 : parsePem input1 = .ok ("ED25519 PRIVATE KEY", d1))
    (h1d : detectPkcs8 d1 false = .ok (some OID_ED448))
    (h2 : parsePem input2 = .ok ("ED448 PRIVATE KEY", d2))
    (h2d : detectPkcs8 d2 false = .ok (some OID_ED25519)) :
    signerFromPem .eddsa input1
      = .error (.invalidKeyFormat "The EdDSA curve is mismatched: 1.3.101.113")
    ∧ signerFromPem .eddsa input2
      = .error (.invalidKeyFormat "The EdDSA curve is mismatched: 1.3.101.112") := by
  constructor
  · rw [signerFromPem, h1]
    simp only
    rw [if_neg (by decide), if_pos (by decide), h1d]
    simp only
    rw [if_neg (by decide)]
    rfl
  · rw [signerFromPem, h2]
    simp only
    rw [if_neg (by decide), if_neg (by decide), if_pos (by decide), h2d]
    simp only
    rw [if_neg (by decide)]
    rfl

/-- The Ed448-OID PKCS#8 body of the C9 witness. -/
def c9body1 : List Nat := toPkcs8 (List.replicate 32 1) false OID_ED448

/-- The Ed25519-labelled PEM of the C9 witness, carrying `c9body1`. -/
def c9pem1 : List Nat :=
  strBytes "-----BEGIN ED25519 PRIVATE KEY-----\n" ++ b64StdEncode c9body1
    ++ strBytes "\n-----END ED25519 PRIVATE KEY-----\n"

/-- The Ed25519-OID PKCS#8 body of the C9 witness. -/
def c9body2 : List Nat := toPkcs8 (List.replicate 57 1) false OID_ED25519

/-- The Ed448-labelled PEM of the C9 witness, carrying `c9body2`. -/
def c9pem2 : List Nat :=
  strBytes "-----BEGIN ED448 PRIVATE KEY-----\n" ++ b64StdEncode c9body2
    ++ strBytes "\n-----END ED448 PRIVATE KEY-----\n"

theorem c9_eddsa_pem_curve_mismatch_witness :
    signerFromPem .eddsa c9pem1
      = .error (.invalidKeyFormat "The EdDSA curve is mismatched: 1.3.101.113")
    ∧ signerFromPem .eddsa c9pem2
      = .error (.invalidKeyFormat "The EdDSA curve is mismatched: 1.3.101.112") :=
  c9_eddsa_pem_curve_mismatch c9pem1 c9pem2 c9body1 c9body2
    (by rfl) (by rfl) (by rfl) (by rfl)

/-! ## Claim C10: `alg` must live in the protected header -/

theorem mapGet_remove_other (m : JsonMap) (k k' : String) (h : k ≠ k') :
    mapGet (mapRemove m k).2 k' = mapGet m k' := by
  induction m with
  | nil => rfl
  | cons p rest ih =>
      obtain ⟨k0, v0⟩ := p
      by_cases h0 : k0 = k
      · subst h0
        have : ¬ (k0 = k') := h
        simp [mapRemove, mapGet, this]
      · simp only [mapRemove, if_neg h0]
        by_cases h1 : k0 = k' <;> simp [mapGet, h1, ih]

/-- C10: a signature entry processed by the `deserialize_json` walk whose
`protected` field is absent, or whose decoded protected header lacks the
`alg` claim, makes the call fail with `InvalidJwtFormat` — regardless of
the unprotected `header` field, so in particular even when `alg` appears
there. -/
theorem c10_json_alg_in_protected (ctx : JwsContext) (codec : JsonCodec)
    (pb : String) (sel : JwsHeader → Except JoseError (Option JwsVerifier))
    (sig : JsonMap) (rest : List JsonMap) :
    (mapGet sig "protected" = none →
      dsjLoop ctx codec pb sel (sig :: rest)
        = .error (.invalidJwtFormat "The JWS alg header claim must be in protected."))
    ∧ (∀ s bytes prot,
        mapGet sig "protected" = some (.str s) →
        b64urlDecode (strBytes s) = some bytes →
        codec.fromSlice bytes = some prot →
        mapGet prot "alg" = none →
        dsjLoop ctx codec pb sel (sig :: rest)
          = .error (.invalidJwtFormat "The JWS alg header claim must be in protected.")) := by
  have hget : mapGet (mapRemove sig "header").2 "protected"
      = mapGet sig "protected" :=
    mapGet_remove_other sig "header" "protected" (by decide)
  constructor
  · intro hp
    have hprep : prepareEntry codec sig
        = .error (.invalidJwtFormat "The JWS alg header claim must be in protected.") := by
      simp [prepareEntry, hget, hp]
    rw [dsjLoop, hprep]
  · intro s bytes prot hp hb hc ha
    have hprep : prepareEntry codec sig
        = .error (.invalidJwtFormat "The JWS alg header claim must be in protected.") := by
      simp [prepareEntry, hget, hp, hb, hc, ha]
    rw [dsjLoop, hprep]

/-- The C10 witness entry with no `protected` field (but `alg` in the
unprotected header). -/
def c10sigA : JsonMap :=
  [("header", .obj [("alg", .str "EdDSA")]), ("signature", .str "AA")]

/-- The C10 witness protected map lacking `alg`. -/
def c10prot : JsonMap := [("kid", .str "x")]

/-- The C10 witness base64url protected string. -/
def c10protB64 : String := asciiStr (b64urlEncode (printJson (.obj c10prot)))

/-- The C10 witness entry whose protected header lacks `alg` while the
unprotected header carries it. -/
def c10sigB : JsonMap :=
  [("protected", .str c10protB64), ("header", .obj [("alg", .str "EdDSA")]),
   ("signature", .str "AA")]

theorem c10_json_alg_in_protected_witness :
    dsjLoop JwsContext.new jsonCodec "AA" (fun _ => .ok none) [c10sigA]
      = .error (.invalidJwtFormat "The JWS alg header claim must be in protected.")
    ∧ dsjLoop JwsContext.new jsonCodec "AA" (fun _ => .ok none) [c10sigB]
      = .error (.invalidJwtFormat "The JWS alg header claim must be in protected.") :=
  ⟨(c10_json_alg_in_protected JwsContext.new jsonCodec "AA" (fun _ => .ok none)
      c10sigA []).1 (by rfl),
   (c10_json_alg_in_protected JwsContext.new jsonCodec "AA" (fun _ => .ok none)
      c10sigB []).2 c10protB64 (printJson (.obj c10prot)) c10prot
      (by rfl) (by rfl) (by rfl) (by rfl)⟩

/-! ## Claim C7: compact output has exactly two dots -/

theorem compactPayloadSegment_no_dot (b64 : Bool) (p seg : List Nat)
    (h : compactPayloadSegment b64 p = .ok seg) : 46 ∉ seg := by
  rw [compactPayloadSegment] at h
  split at h
  · cases h
    exact b64urlEncode_not_mem_dot p
  · split at h
    · split at h
      · cases h
      · cases h
        assumption
    · cases h

/-- C7: whenever `serialize_compact` succeeds, its output contains exactly
two `.` (byte 46) characters. -/
theorem c7_compact_two_dots (codec : JsonCodec) (payload : List Nat)
    (header : JwsHeader) (signer : JwsSigner) (w : List Nat)
    (hw : serializeCompact codec payload header signer = .ok w) :
    w.count 46 = 2 := by
  rw [serializeCompact, serializeCompactWithSelector] at hw
  simp only at hw
  split at hw
  · cases hw
  · rename_i seg hseg
    split at hw
    · cases hw
    · rename_i s hs
      cases hw
      have h1 : (b64urlEncode (codec.toVec (serializedHeaderMap signer header))).count 46 = 0 :=
        List.count_eq_zero.mpr (b64urlEncode_not_mem_dot _)
      have h2 : seg.count 46 = 0 :=
        List.count_eq_zero.mpr (compactPayloadSegment_no_dot _ _ _ hseg)
      have h3 : (b64urlEncode s).count 46 = 0 :=
        List.count_eq_zero.mpr (b64urlEncode_not_mem_dot _)
      simp [List.count_append, List.count_cons, h1, h2, h3]

/-- The fixed signer of the C7 witness. -/
def c7signer : JwsSigner := ⟨"EdDSA", none, fun _ => some [1, 2, 3]⟩

/-- The compact output of the C7 witness. -/
def c7wire : List Nat :=
  (serializeCompact jsonCodec [97] ⟨[]⟩ c7signer).toOption.getD []

theorem c7_compact_two_dots_witness : c7wire.count 46 = 2 :=
  c7_compact_two_dots jsonCodec [97] ⟨[]⟩ c7signer c7wire (by rfl)

/-! ## Claim C5: the `b64:false` compact form -/

/-- C5: with `crit` listing `b64` and the `b64` claim set to `false`, for
a valid-UTF-8 payload without a dot the compact output is
`BASE64URL(protected) . payload . BASE64URL(sig)` — in particular its
middle dot-separated segment is the payload itself — and the bytes given
to the signer are `BASE64URL(protected) || "." || payload`; a payload
containing a dot is rejected with the dot error. -/
theorem c5_b64false_compact (codec : JsonCodec) (payload : List Nat)
    (header : JwsHeader) (signer : JwsSigner) (l : List String) (s : List Nat)
    (hl : header.critical = some l)
    (hb : "b64" ∈ l)
    (hb64 : header.base64urlEncodePayload = some false)
    (hutf : isValidUtf8 payload = true)
    (hdot : 46 ∉ payload)
    (hs : signer.sign (b64urlEncode (codec.toVec (serializedHeaderMap signer header))
            ++ 46 :: payload) = some s) :
    serializeCompact codec payload header signer
      = .ok ((b64urlEncode (codec.toVec (serializedHeaderMap signer header))
          ++ 46 :: payload) ++ 46 :: b64urlEncode s)
    ∧ splitOnDot ((b64urlEncode (codec.toVec (serializedHeaderMap signer header))
          ++ 46 :: payload) ++ 46 :: b64urlEncode s)
        = [b64urlEncode (codec.toVec (serializedHeaderMap signer header)),
           payload, b64urlEncode s]
    ∧ (∀ p2, isValidUtf8 p2 = true → 46 ∈ p2 →
        serializeCompact codec p2 header signer
          = .error (.invalidJwtFormat "A JWS payload cannot contain dot.")) := by
  have heff : effectiveB64 header = false := by
    rw [effectiveB64, hl]
    simp [hb, hb64]
  have hseg : compactPayloadSegment false payload = .ok payload := by
    rw [compactPayloadSegment]
    simp [hutf, hdot]
  refine ⟨?_, ?_, ?_⟩
  · simp only [serializeCompact, serializeCompactWithSelector, heff, hseg, hs]
  · rw [List.append_assoc, List.cons_append]
    exact splitOnDot_three _ _ _ (b64urlEncode_not_mem_dot _) hdot
      (b64urlEncode_not_mem_dot _)
  · intro p2 h2utf h2dot
    have hseg2 : compactPayloadSegment false p2
        = .error (.invalidJwtFormat "A JWS payload cannot contain dot.") := by
      rw [compactPayloadSegment]
      simp [h2utf, h2dot]
    simp only [serializeCompact, serializeCompactWithSelector, heff, hseg2]

/-- The C5 witness header: `{"crit":["b64"],"b64":false}`. -/
def c5header : JwsHeader := ⟨[("crit", .arr [.str "b64"]), ("b64", .bool false)]⟩

/-- The C5 witness signer. -/
def c5signer : JwsSigner := ⟨"EdDSA", none, fun _ => some [5]⟩

/-- The C5 witness payload, the UTF-8 bytes of `hello`. -/
def c5payload : List Nat := strBytes "hello"

theorem c5_b64false_compact_witness :
    serializeCompact jsonCodec c5payload c5header c5signer
      = .ok ((b64urlEncode (jsonCodec.toVec (serializedHeaderMap c5signer c5header))
          ++ 46 :: c5payload) ++ 46 :: b64urlEncode [5])
    ∧ splitOnDot ((b64urlEncode (jsonCodec.toVec (serializedHeaderMap c5signer c5header))
          ++ 46 :: c5payload) ++ 46 :: b64urlEncode [5])
        = [b64urlEncode (jsonCodec.toVec (serializedHeaderMap c5signer c5header)),
           c5payload, b64urlEncode [5]]
    ∧ serializeCompact jsonCodec [46] c5header c5signer
      = .error (.invalidJwtFormat "A JWS payload cannot contain dot.") := by
  have h := c5_b64false_compact jsonCodec c5payload c5header c5signer ["b64"] [5]
    (by rfl) (by decide) (by rfl) (by rfl) (by decide) (by rfl)
  exact ⟨h.1, h.2.1, h.2.2 [46] (by rfl) (by decide)⟩

/-! ## Claim C2: unaccepted `crit` names and JSON deserialization

The compact walk (source lines 405-420) reads the `crit` claim and
enforces the acceptance set, but the JSON walk (source line 585) reads the
key `"critical"`, so a `crit` claim is exercised by `deserialize_json` not
at all: verification succeeds although `crit` carries a name outside the
acceptance set. -/

/-- The C2 protected header with an unaccepted critical name. -/
def c2prot : JsonMap := [("alg", .str "EdDSA"), ("crit", .arr [.str "x-unknown"])]

/-- The C2 base64url protected string. -/
def c2protB64 : String := asciiStr (b64urlEncode (printJson (.obj c2prot)))

/-- The C2 general-JSON input: one signature entry carrying `c2prot`. -/
def c2input : List Nat :=
  printJson (.obj
    [("signatures", .arr [.obj
        [("protected", .str c2protB64),
         ("header", .obj [("foo", .str "bar")]),
         ("signature", .str "AA")]]),
     ("payload", .str "AA")])

/-- The C2 verifier: cryptographically every signature is valid. -/
def c2verifier : JwsVerifier := ⟨"EdDSA", none, fun _ _ => true⟩

/-- The C2 signer used to produce the contrasting compact token. -/
def c2signer : JwsSigner := ⟨"EdDSA", none, fun _ => some [1]⟩

/-- A compact token over the same protected header as `c2input`. -/
def c2compactWire : List Nat :=
  (serializeCompact jsonCodec [97] ⟨c2prot⟩ c2signer).toOption.getD []

/-- C2 (failing direction): with the empty acceptance set, a protected
header whose `crit` lists the unaccepted name `x-unknown` still verifies
through `deserialize_json` — the walk looks up the key `critical`, not
`crit` — contradicting the claim that verification must fail; the same
protected header in compact form is rejected by `deserialize_compact`
exactly as the claim describes. -/
theorem c2_json_crit_not_enforced :
    mapGet c2prot "crit" = some (.arr [.str "x-unknown"])
    ∧ JwsContext.new.isAcceptableCritical "x-unknown" = false
    ∧ (deserializeJsonWithSelector JwsContext.new jsonCodec c2input
        (fun _ => .ok (some c2verifier))).isOk = true
    ∧ deserializeCompact JwsContext.new jsonCodec c2compactWire c2verifier
      = .error (.invalidJwtFormat "The critical name is not supported: x-unknown") :=
  ⟨by rfl, by rfl, by rfl, by rfl⟩

/-! ## Claim C3: the protected/unprotected merge

The merge base for an entry without an unprotected `header` field is
`protected.clone()` (source line 539) rather than an empty map, so the
following loop over `protected` immediately finds every protected key
"already present": an entry with a protected header but no unprotected
header always fails with the duplicate-key error, although the two headers
share no claim name (there is no unprotected header at all). -/

/-- The C3 protected header. -/
def c3prot : JsonMap := [("alg", .str "EdDSA")]

/-- The C3 base64url protected string. -/
def c3protB64 : String := asciiStr (b64urlEncode (printJson (.obj c3prot)))

/-- The C3 flattened-JSON input: `protected` and `signature` only, no
unprotected `header` field. -/
def c3input : List Nat :=
  printJson (.obj
    [("payload", .str "AA"), ("protected", .str c3protB64),
     ("signature", .str "AA")])

/-- C3 (failing direction): a flattened JWS with a protected header and no
unprotected header fails with the duplicate-key `InvalidJwtFormat` error
(on the protected header's own first key) instead of merging cleanly, so
the selector is never consulted. -/
theorem c3_merge_duplicate_on_missing_header :
    deserializeJsonWithSelector JwsContext.new jsonCodec c3input
      (fun _ => .ok none)
      = .error (.invalidJwtFormat "A duplicate key exists: alg") := by
  rfl

/-! ## Claim C6: the order of the `signatures` walk -/

/-- The C6 protected header of the first entry. -/
def c6prot1 : JsonMap := [("alg", .str "EdDSA"), ("kid", .str "k1")]

/-- The C6 protected header of the second entry. -/
def c6prot2 : JsonMap := [("alg", .str "EdDSA"), ("kid", .str "k2")]

/-- The C6 base64url protected string of the first entry. -/
def c6pb1 : String := asciiStr (b64urlEncode (printJson (.obj c6prot1)))

/-- The C6 base64url protected string of the second entry. -/
def c6pb2 : String := asciiStr (b64urlEncode (printJson (.obj c6prot2)))

/-- The C6 first entry: its signature decodes to `[2]`, which the verifier
rejects. -/
def c6entry1 : Json :=
  .obj [("protected", .str c6pb1), ("header", .obj [("hdr", .str "x")]),
        ("signature", .str (asciiStr (b64urlEncode [2])))]

/-- The C6 second entry: its signature decodes to `[1]`, which the
verifier accepts. -/
def c6entry2 : Json :=
  .obj [("protected", .str c6pb2), ("header", .obj [("hdr", .str "y")]),
        ("signature", .str (asciiStr (b64urlEncode [1])))]

/-- The C6 verifier: accepts exactly the signature `[1]`. -/
def c6verifier : JwsVerifier := ⟨"EdDSA", none, fun _ s => s == [1]⟩

/-- The C6 selector: yields the verifier for every entry. -/
def c6sel : JwsHeader → Except JoseError (Option JwsVerifier) :=
  fun _ => .ok (some c6verifier)

/-- The C6 two-entry general JSON input. -/
def c6inputBoth : List Nat :=
  printJson (.obj [("payload", .str "AA"), ("signatures", .arr [c6entry1, c6entry2])])

/-- The C6 input holding only the second entry. -/
def c6inputSecond : List Nat :=
  printJson (.obj [("payload", .str "AA"), ("signatures", .arr [c6entry2])])

/-- C6 (failing direction): in a two-entry input whose second entry is the
first one that both selector-matches and verifies, the walk does not
return that entry's result — the first selector-matched entry's failing
signature is terminal — although the second entry alone verifies fine. -/
theorem c6_first_match_terminal_counterexample :
    deserializeJsonWithSelector JwsContext.new jsonCodec c6inputBoth c6sel
      = .error (.invalidSignature "The signature does not verify.")
    ∧ (deserializeJsonWithSelector JwsContext.new jsonCodec c6inputSecond
        c6sel).isOk = true :=
  ⟨by rfl, by rfl⟩

/-- C6 (amended): the `signatures` array is walked in order; an entry
whose selector yields `None` is skipped without error; the *first* entry
whose selector yields a verifier is decisive — when its checks pass and
its signature verifies, its payload and merged header are returned
regardless of the remaining entries (and a failing signature there is a
terminal error rather than a skip); an exhausted walk — in particular a
zero-element `signatures` array — is the terminal no-matching-signature
`InvalidJwtFormat` error. -/
theorem c6_json_walk_amended :
    (∀ ctx codec pb sel,
        dsjLoop ctx codec pb sel []
          = .error (.invalidJwtFormat
              "A signature that matched the header claims is not found."))
    ∧ (∀ ctx codec pb sel sig rest prot pb64 sg mh,
        prepareEntry codec sig = .ok (prot, pb64, sg, mh) →
        sel mh = .ok none →
        dsjLoop ctx codec pb sel (sig :: rest) = dsjLoop ctx codec pb sel rest)
    ∧ (∀ ctx codec pb sel sig rest prot pb64 sg mh v b64,
        prepareEntry codec sig = .ok (prot, pb64, sg, mh) →
        sel mh = .ok (some v) →
        checkEntryJson ctx prot mh v = .ok b64 →
        v.verify (strBytes pb64 ++ 46 :: strBytes pb) sg = true →
        dsjLoop ctx codec pb sel (sig :: rest)
          = match (if b64 then b64urlDecode (strBytes pb) else some (strBytes pb)) with
            | some payload => .ok (payload, mh)
            | none => .error (.invalidJwtFormat "The payload is invalid base64."))
    ∧ (∀ ctx codec input sel m pb,
        codec.fromSlice input = some m →
        (mapRemove m "payload").1 = some (.str pb) →
        (mapRemove (mapRemove m "payload").2 "signatures").1 = some (.arr []) →
        deserializeJsonWithSelector ctx codec input sel
          = .error (.invalidJwtFormat
              "A signature that matched the header claims is not found.")) := by
  refine ⟨fun ctx codec pb sel => by rw [dsjLoop], ?_, ?_, ?_⟩
  · intro ctx codec pb sel sig rest prot pb64 sg mh hprep hsel
    rw [dsjLoop, hprep]
    simp only [hsel]
  · intro ctx codec pb sel sig rest prot pb64 sg mh v b64 hprep hsel hcheck hv
    rw [dsjLoop, hprep]
    simp only [hsel, hcheck, hv]
    simp
  · intro ctx codec input sel m pb hin hpb hsigs
    rw [deserializeJsonWithSelector, hin]
    simp only [hpb, hsigs, collectObjs, dsjLoop]

/-- The C6 witness entry for the skip and return parts. -/
def c6wsig : JsonMap :=
  [("protected", .str c6pb1), ("header", .obj [("hdr", .str "x")]),
   ("signature", .str "AA")]

/-- The merged header map of the C6 witness entry. -/
def c6wmerged : JsonMap :=
  [("hdr", .str "x"), ("alg", .str "EdDSA"), ("kid", .str "k1")]

/-- The C6 witness verifier that accepts everything. -/
def c6wverifier : JwsVerifier := ⟨"EdDSA", none, fun _ _ => true⟩

/-- The C6 zero-entry general JSON input. -/
def c6emptyInput : List Nat :=
  printJson (.obj [("payload", .str "AA"), ("signatures", .arr [])])

theorem c6_json_walk_amended_witness :
    dsjLoop JwsContext.new jsonCodec "AA" (fun _ => .ok none) []
      = .error (.invalidJwtFormat
          "A signature that matched the header claims is not found.")
    ∧ dsjLoop JwsContext.new jsonCodec "AA" (fun _ => .ok none) [c6wsig]
      = dsjLoop JwsContext.new jsonCodec "AA" (fun _ => .ok none) []
    ∧ dsjLoop JwsContext.new jsonCodec "AA" (fun _ => .ok (some c6wverifier))
        [c6wsig]
      = .ok ([0], ⟨c6wmerged⟩)
    ∧ deserializeJsonWithSelector JwsContext.new jsonCodec c6emptyInput
        (fun _ => .ok none)
      = .error (.invalidJwtFormat
          "A signature that matched the header claims is not found.") := by
  refine ⟨c6_json_walk_amended.1 _ _ _ _, ?_, ?_, ?_⟩
  · exact c6_json_walk_amended.2.1 JwsContext.new jsonCodec "AA" (fun _ => .ok none)
      c6wsig [] c6prot1 c6pb1 [0] ⟨c6wmerged⟩ (by rfl) (by rfl)
  · exact (c6_json_walk_amended.2.2.1 JwsContext.new jsonCodec "AA"
      (fun _ => .ok (some c6wverifier)) c6wsig [] c6prot1 c6pb1 [0] ⟨c6wmerged⟩
      c6wverifier true (by rfl) (by rfl) (by rfl) (by rfl)).trans (by rfl)
  · exact c6_json_walk_amended.2.2.2 JwsContext.new jsonCodec c6emptyInput
      (fun _ => .ok none)
      [("payload", .str "AA"), ("signatures", .arr [])] "AA"
      (by rfl) (by rfl) (by rfl)

/-! ## Claim C1: the compact round trip -/

theorem headerWf_insert (m : JsonMap) (k : String) (s : String)
    (hm : headerWf m = true) (hk : k = "alg" ∨ k = "kid") :
    headerWf (mapInsert m k (.str s)) = true := by
  rw [headerWf] at hm ⊢
  simp only [Bool.and_eq_true] at hm ⊢
  obtain ⟨⟨⟨h1, h2⟩, h3⟩, h4⟩ := hm
  rcases hk with hk | hk <;> subst hk
  · rw [mapGet_insert_same, mapGet_insert_other _ _ "kid" _ (by decide),
      mapGet_insert_other _ _ "crit" _ (by decide),
      mapGet_insert_other _ _ "b64" _ (by decide)]
    exact ⟨⟨⟨rfl, h2⟩, h3⟩, h4⟩
  · rw [mapGet_insert_same, mapGet_insert_other _ _ "alg" _ (by decide),
      mapGet_insert_other _ _ "crit" _ (by decide),
      mapGet_insert_other _ _ "b64" _ (by decide)]
    exact ⟨⟨⟨h1, rfl⟩, h3⟩, h4⟩

theorem serializedHeaderMap_alg (signer : JwsSigner) (h : JwsHeader) :
    mapGet (serializedHeaderMap signer h) "alg" = some (.str signer.algName) := by
  rw [serializedHeaderMap]
  cases hk : signer.keyId with
  | none => exact mapGet_insert_same _ _ _
  | some kid =>
      rw [mapGet_insert_other _ "kid" "alg" _ (by decide)]
      exact mapGet_insert_same _ _ _

theorem serializedHeaderMap_other (signer : JwsSigner) (h : JwsHeader)
    (k : String) (h1 : k ≠ "alg") (h2 : k ≠ "kid") :
    mapGet (serializedHeaderMap signer h) k = mapGet h.claimsSet k := by
  rw [serializedHeaderMap]
  cases hk : signer.keyId with
  | none => exact mapGet_insert_other _ _ _ _ (fun hc => h1 hc.symm)
  | some kid =>
      rw [mapGet_insert_other _ "kid" k _ (fun hc => h2 hc.symm)]
      exact mapGet_insert_other _ _ _ _ (fun hc => h1 hc.symm)

theorem serializedHeaderMap_kid_none (signer : JwsSigner) (h : JwsHeader)
    (hk : signer.keyId = none) :
    mapGet (serializedHeaderMap signer h) "kid" = mapGet h.claimsSet "kid" := by
  rw [serializedHeaderMap, hk]
  exact mapGet_insert_other _ "alg" "kid" _ (by decide)

theorem serializedHeaderMap_kid_some (signer : JwsSigner) (h : JwsHeader)
    (kid : String) (hk : signer.keyId = some kid) :
    mapGet (serializedHeaderMap signer h) "kid" = some (.str kid) := by
  rw [serializedHeaderMap, hk]
  exact mapGet_insert_same _ _ _

theorem headerWf_serializedHeaderMap (signer : JwsSigner) (h : JwsHeader)
    (hwf : headerWf h.claimsSet = true) :
    headerWf (serializedHeaderMap signer h) = true := by
  rw [serializedHeaderMap]
  have hw1 := headerWf_insert h.claimsSet "alg" signer.algName hwf (Or.inl rfl)
  cases hk : signer.keyId with
  | none => exact hw1
  | some kid => exact headerWf_insert _ "kid" kid hw1 (Or.inr rfl)

theorem base64View_none (h : JwsHeader) (hb : h.claim "b64" = none) :
    h.base64urlEncodePayload = none := by
  rw [JwsHeader.base64urlEncodePayload, hb]

theorem effectiveB64_of_b64_none (h : JwsHeader)
    (hb : h.base64urlEncodePayload = none) : effectiveB64 h = true := by
  rw [effectiveB64]
  cases hc : h.critical with
  | none => rfl
  | some l =>
      by_cases hm : "b64" ∈ l
      · simp [hm, hb]
      · simp [hm]

theorem critWalkCompact_all_ok (ctx : JwsContext) (header : JwsHeader)
    (vals : List Json) (b : Bool)
    (hacc : ∀ s, Json.str s ∈ vals → ctx.isAcceptableCritical s = true)
    (hb64 : header.base64urlEncodePayload = none) :
    critWalkCompact ctx header vals b = .ok b := by
  induction vals with
  | nil => rfl
  | cons v rest ih =>
      have hrest : ∀ s, Json.str s ∈ rest → ctx.isAcceptableCritical s = true :=
        fun s hs => hacc s (by simp [hs])
      cases v with
      | str name =>
          simp only [critWalkCompact]
          rw [if_pos (hacc name (by simp))]
          have harg : (if name = "b64" then
              match header.base64urlEncodePayload with
              | some val => val
              | none => b
            else b) = b := by
            rw [hb64]
            split <;> rfl
          rw [harg]
          exact ih hrest
      | null => simp only [critWalkCompact]; exact ih hrest
      | bool b0 => simp only [critWalkCompact]; exact ih hrest
      | num n0 => simp only [critWalkCompact]; exact ih hrest
      | arr xs => simp only [critWalkCompact]; exact ih hrest
      | obj m0 => simp only [critWalkCompact]; exact ih hrest

theorem critB64Compact_serialized_ok (ctx : JwsContext) (signer : JwsSigner)
    (h : JwsHeader)
    (hcrit : ∀ l, h.critical = some l → ∀ n ∈ l, ctx.isAcceptableCritical n = true)
    (hb64 : h.claim "b64" = none) :
    critB64Compact ctx ⟨serializedHeaderMap signer h⟩ = .ok true := by
  have hb64m : (⟨serializedHeaderMap signer h⟩ : JwsHeader).base64urlEncodePayload
      = none := by
    apply base64View_none
    show mapGet (serializedHeaderMap signer h) "b64" = none
    rw [serializedHeaderMap_other signer h "b64" (by decide) (by decide)]
    exact hb64
  have hcm : (⟨serializedHeaderMap signer h⟩ : JwsHeader).claim "crit"
      = h.claim "crit" := by
    show mapGet (serializedHeaderMap signer h) "crit" = _
    rw [serializedHeaderMap_other signer h "crit" (by decide) (by decide)]
    rfl
  rw [critB64Compact, hcm]
  cases hc : h.claim "crit" with
  | none => rfl
  | some j =>
      cases j with
      | arr vals =>
          apply critWalkCompact_all_ok
          · intro s hs
            have hview : h.critical
                = some (vals.filterMap
                    (fun j => match j with | .str s => some s | _ => none)) := by
              rw [JwsHeader.critical, hc]
            exact hcrit _ hview s (List.mem_filterMap.mpr ⟨.str s, hs, rfl⟩)
          · exact hb64m
      | null => rfl
      | bool b0 => rfl
      | num n0 => rfl
      | str s0 => rfl
      | obj m0 => rfl

/-- C1 (amended): the compact round trip holds for every header whose
critical names (if any) are all in the context's acceptance set and whose
`kid` claim (if any) agrees with the signer's key id: serializing and then
deserializing returns the payload and a header with the algorithm name,
every claim of the input header surviving with its value.  The external
collaborators enter as hypotheses: a valid key pair (every signed message
verifies), and the JSON codec's round trip at the serialized header. -/
theorem c1_compact_roundtrip_amended (codec : JsonCodec) (ctx : JwsContext)
    (p : List Nat) (h : JwsHeader) (signer : JwsSigner)
    (verifier : JwsVerifier) (A : String)
    (hwf : headerWf h.claimsSet = true)
    (halg : h.claim "alg" = some (.str A))
    (hsalg : signer.algName = A)
    (hvalg : verifier.algName = A)
    (hvkid : verifier.keyId = none)
    (hkid : ∀ kk, signer.keyId = some kk →
        h.claim "kid" = none ∨ h.claim "kid" = some (.str kk))
    (hcrit : ∀ l, h.critical = some l → ∀ n ∈ l, ctx.isAcceptableCritical n = true)
    (hb64 : h.claim "b64" = none)
    (hp : ∀ b ∈ p, b < 256)
    (hsig : ∀ m, ∃ s, signer.sign m = some s ∧ (∀ b ∈ s, b < 256)
        ∧ verifier.verify m s = true)
    (hcodec : codec.fromSlice (codec.toVec (serializedHeaderMap signer h))
        = some (serializedHeaderMap signer h))
    (hcbytes : ∀ b ∈ codec.toVec (serializedHeaderMap signer h), b < 256) :
    ∃ w h', serializeCompact codec p h signer = .ok w
      ∧ deserializeCompact ctx codec w verifier = .ok (p, h')
      ∧ h'.algorithm = some A
      ∧ ∀ k v, h.claim k = some v → h'.claim k = some v := by
  obtain ⟨s, hs, hsb, hver⟩ :=
    hsig (b64urlEncode (codec.toVec (serializedHeaderMap signer h))
      ++ 46 :: b64urlEncode p)
  refine ⟨(b64urlEncode (codec.toVec (serializedHeaderMap signer h))
      ++ 46 :: b64urlEncode p) ++ 46 :: b64urlEncode s,
    ⟨serializedHeaderMap signer h⟩, ?_, ?_, ?_, ?_⟩
  · -- serialization
    have heff : effectiveB64 h = true :=
      effectiveB64_of_b64_none h (base64View_none h hb64)
    have hseg : compactPayloadSegment true p = .ok (b64urlEncode p) := rfl
    simp only [serializeCompact, serializeCompactWithSelector, heff, hseg, hs]
  · -- deserialization
    have hsplit : splitOnDot
        ((b64urlEncode (codec.toVec (serializedHeaderMap signer h))
          ++ 46 :: b64urlEncode p) ++ 46 :: b64urlEncode s)
        = [b64urlEncode (codec.toVec (serializedHeaderMap signer h)),
           b64urlEncode p, b64urlEncode s] := by
      rw [List.append_assoc, List.cons_append]
      exact splitOnDot_three _ _ _ (b64urlEncode_not_mem_dot _)
        (b64urlEncode_not_mem_dot _) (b64urlEncode_not_mem_dot _)
    have hparse : parseCompactHeader codec
        (b64urlEncode (codec.toVec (serializedHeaderMap signer h)))
        = .ok ⟨serializedHeaderMap signer h⟩ := by
      rw [parseCompactHeader, b64urlDecode_encode _ hcbytes]
      simp only [hcodec]
      rw [JwsHeader.fromMap, if_pos (headerWf_serializedHeaderMap signer h hwf)]
    have hca : checkAlg ⟨serializedHeaderMap signer h⟩ verifier.algName
        = .ok () := by
      rw [checkAlg]
      have hga : (⟨serializedHeaderMap signer h⟩ : JwsHeader).claim "alg"
          = some (.str signer.algName) := serializedHeaderMap_alg signer h
      rw [hga]
      simp [hsalg, hvalg]
    have hck : checkKid (⟨serializedHeaderMap signer h⟩ : JwsHeader).keyId
        verifier.keyId = .ok () := by
      rw [checkKid.eq_def, hvkid]
    have hcb : critB64Compact ctx ⟨serializedHeaderMap signer h⟩ = .ok true :=
      critB64Compact_serialized_ok ctx signer h hcrit hb64
    rw [deserializeCompact, deserializeCompactWithSelector, hsplit]
    simp only [hparse]
    rw [compactVerifyTail, hca]
    simp only [hck, hcb]
    rw [b64urlDecode_encode _ hsb]
    simp only [hver, if_true]
    rw [b64urlDecode_encode _ hp]
  · -- the algorithm of the returned header
    have hga : (⟨serializedHeaderMap signer h⟩ : JwsHeader).claim "alg"
        = some (.str signer.algName) := serializedHeaderMap_alg signer h
    simp only [JwsHeader.algorithm, hga, hsalg]
  · -- every input claim survives with its value
    intro k v hkv
    by_cases hk1 : k = "alg"
    · subst hk1
      rw [halg] at hkv
      cases hkv
      show mapGet (serializedHeaderMap signer h) "alg" = _
      rw [serializedHeaderMap_alg signer h, hsalg]
    · by_cases hk2 : k = "kid"
      · subst hk2
        cases hkk : signer.keyId with
        | none =>
            show mapGet (serializedHeaderMap signer h) "kid" = some v
            rw [serializedHeaderMap_kid_none signer h hkk]
            exact hkv
        | some kk =>
            show mapGet (serializedHeaderMap signer h) "kid" = some v
            rw [serializedHeaderMap_kid_some signer h kk hkk]
            rcases hkid kk hkk with hnone | hsome
            · rw [hkv] at hnone
              cases hnone
            · rw [hkv] at hsome
              cases hsome
              rfl
      · show mapGet (serializedHeaderMap signer h) k = some v
        rw [serializedHeaderMap_other signer h k hk1 hk2]
        exact hkv

/-- The C1 counterexample header: `alg` plus a `crit` naming an extension
outside the (empty) acceptance set. -/
def c1header : JwsHeader := ⟨[("alg", .str "EdDSA"), ("crit", .arr [.str "x-foo"])]⟩

/-- The C1 counterexample signer. -/
def c1signer : JwsSigner := ⟨"EdDSA", none, fun _ => some [1]⟩

/-- The C1 counterexample verifier: accepts every signature of the pair. -/
def c1verifier : JwsVerifier := ⟨"EdDSA", none, fun _ _ => true⟩

/-- The serialized compact wire of the C1 counterexample. -/
def c1wire : List Nat :=
  (serializeCompact jsonCodec [97, 98] c1header c1signer).toOption.getD []

/-- C1 (failing direction): for the header `{alg, crit:["x-foo"]}` —
default `b64`, verifier without a bound kid, a valid key pair —
serialization succeeds but deserialization with the default context fails
at the critical-name check, so the round trip does not hold for every
header as claimed. -/
theorem c1_crit_breaks_roundtrip_counterexample :
    serializeCompact jsonCodec [97, 98] c1header c1signer = .ok c1wire
    ∧ (∀ m s, c1signer.sign m = some s → c1verifier.verify m s = true)
    ∧ deserializeCompact JwsContext.new jsonCodec c1wire c1verifier
      = .error (.invalidJwtFormat "The critical name is not supported: x-foo") :=
  ⟨by rfl, fun _ _ _ => rfl, by rfl⟩

/-- The C1 witness header. -/
def c1wheader : JwsHeader := ⟨[("alg", .str "EdDSA")]⟩

/-- The C1 witness signer. -/
def c1wsigner : JwsSigner := ⟨"EdDSA", none, fun _ => some [1]⟩

/-- The C1 witness verifier. -/
def c1wverifier : JwsVerifier := ⟨"EdDSA", none, fun _ _ => true⟩

theorem c1_compact_roundtrip_amended_witness :
    ∃ w h', serializeCompact jsonCodec [97] c1wheader c1wsigner = .ok w
      ∧ deserializeCompact JwsContext.new jsonCodec w c1wverifier = .ok ([97], h')
      ∧ h'.algorithm = some "EdDSA"
      ∧ ∀ k v, c1wheader.claim k = some v → h'.claim k = some v :=
  c1_compact_roundtrip_amended jsonCodec JwsContext.new [97] c1wheader c1wsigner
    c1wverifier "EdDSA" (by rfl) (by rfl) rfl rfl rfl
    (fun kk hkk => nomatch hkk)
    (fun l hl => nomatch hl)
    (by rfl)
    (by decide)
    (fun _ => ⟨[1], rfl, by decide, rfl⟩)
    (by rfl)
    (by decide)
